import Mathlib

/-!
# The certification server of go-varlink (`cmd/certification/server.go`)

A shallow embedding of the certification backend: the per-client state, the
registry of client states, the comparator `isEqual` and the handlers
`Start`, `Test01` .. `Test11`, `End`.

Conventions of the embedding.

* A Go `string` is a sequence of bytes (`GoString`); a Go `int` is an `Int`
  (no handler does arithmetic on one besides the parity test of `Test01`);
  a `float64` is its IEEE-754 bit pattern (`Float64`).
* A Go map is a list of entries in some enumeration order together with the
  distinction between a nil map and an allocated one; a slice likewise.
* The handlers mutate the backend in place and return `(out, err)`; here a
  handler takes the backend and returns the backend after the call together
  with a `Result`.
* Every value a handler takes from `math/rand` is an explicit argument.
* The registry `map[string]*clientState` is a partial function from tokens to
  states: every state is allocated by `newState` for one token only, so no two
  tokens share a state.
-/

namespace Certification

/-! ## Bytes and strings -/

abbrev Byte := Fin 256

/-- A Go string: an arbitrary sequence of bytes, not necessarily valid UTF-8. -/
abbrev GoString := List Byte

abbrev GoBool := Bool

abbrev GoInt := Int

/-- UTF-8 encoding of the code point `r` (`utf8.AppendRune` on a valid rune). -/
def encodeRune (r : Nat) : List Byte :=
  if r < 0x80 then [Fin.ofNat r]
  else if r < 0x800 then [Fin.ofNat (0xC0 + r / 64), Fin.ofNat (0x80 + r % 64)]
  else if r < 0x10000 then
    [Fin.ofNat (0xE0 + r / 4096), Fin.ofNat (0x80 + r / 64 % 64), Fin.ofNat (0x80 + r % 64)]
  else
    [Fin.ofNat (0xF0 + r / 262144), Fin.ofNat (0x80 + r / 4096 % 64),
      Fin.ofNat (0x80 + r / 64 % 64), Fin.ofNat (0x80 + r % 64)]

/-- The Go string written as the literal `s` in the source. -/
def goString (s : String) : GoString :=
  s.toList.flatMap (fun ch => encodeRune ch.toNat)

/-- Table `first` of package `unicode/utf8`: information about the first byte
of a UTF-8 sequence (`0xF0` ASCII, `0xF1` invalid, otherwise the accept-range
index in the high nibble and the size in the low one). -/
def utf8First (b : Nat) : Nat :=
  if b < 0x80 then 0xF0
  else if b < 0xC2 then 0xF1
  else if b < 0xE0 then 0x02
  else if b = 0xE0 then 0x13
  else if b < 0xED then 0x03
  else if b = 0xED then 0x23
  else if b < 0xF0 then 0x03
  else if b = 0xF0 then 0x34
  else if b < 0xF4 then 0x04
  else if b = 0xF4 then 0x44
  else 0xF1

/-- Table `acceptRanges` of package `unicode/utf8`: the range allowed for the
second byte of a sequence. -/
def acceptRanges (i : Nat) : Nat × Nat :=
  match i with
  | 0 => (0x80, 0xBF)
  | 1 => (0xA0, 0xBF)
  | 2 => (0x80, 0x9F)
  | 3 => (0x90, 0xBF)
  | 4 => (0x80, 0x8F)
  | _ => (0, 0)

/-- The rune `utf8.RuneError`. -/
def RuneError : Nat := 0xFFFD

/-- Function `utf8.DecodeRuneInString`: the first rune of `s` and its width in
bytes; `(RuneError, 0)` on the empty string and `(RuneError, 1)` on an invalid
encoding. -/
def decodeRune (s : List Byte) : Nat × Nat :=
  match s with
  | [] => (RuneError, 0)
  | s0 :: t =>
    let x := utf8First s0.val
    if 0xF0 ≤ x then (if x = 0xF1 then RuneError else s0.val, 1)
    else
      let sz := x % 8
      let accept := acceptRanges (x / 16)
      if s.length < sz then (RuneError, 1)
      else
        match t with
        | [] => (RuneError, 1)
        | s1 :: t1 =>
          if s1.val < accept.1 ∨ accept.2 < s1.val then (RuneError, 1)
          else if sz ≤ 2 then (s0.val % 32 * 64 + s1.val % 64, 2)
          else
            match t1 with
            | [] => (RuneError, 1)
            | s2 :: t2 =>
              if s2.val < 0x80 ∨ 0xBF < s2.val then (RuneError, 1)
              else if sz ≤ 3 then (s0.val % 16 * 4096 + s1.val % 64 * 64 + s2.val % 64, 3)
              else
                match t2 with
                | [] => (RuneError, 1)
                | s3 :: _ =>
                  if s3.val < 0x80 ∨ 0xBF < s3.val then (RuneError, 1)
                  else
                    (s0.val % 8 * 262144 + s1.val % 64 * 4096 + s2.val % 64 * 64 + s3.val % 64, 4)

/-! ## `float64` -/

/-- An IEEE-754 binary64 value, given by its 64 bits (sign, 11 bits of
exponent, 52 bits of fraction). -/
structure Float64 where
  bits : Nat
  isLt : bits < 2 ^ 64
deriving DecidableEq

namespace Float64

/-- Biased exponent. -/
def exponent (f : Float64) : Nat := f.bits / 2 ^ 52 % 2048

/-- Fraction bits. -/
def fraction (f : Float64) : Nat := f.bits % 2 ^ 52

def isNaN (f : Float64) : Bool := f.exponent == 2047 && f.fraction != 0

def isInf (f : Float64) : Bool := f.exponent == 2047 && f.fraction == 0

/-- Both zeros, `+0` and `-0`. -/
def isZero (f : Float64) : Bool := f.bits % 2 ^ 63 == 0

/-- Go's `==` on `float64`: a NaN equals nothing, the two zeros are equal, and
otherwise two values are equal when their bits are. -/
def eq (a b : Float64) : Bool :=
  !a.isNaN && !b.isNaN && (a.bits == b.bits || (a.isZero && b.isZero))

/-- The zero value of `float64`, `+0`. -/
def zero : Float64 := ⟨0, by decide⟩

/-- One quiet NaN, `math.NaN()`. -/
def nan : Float64 := ⟨0x7FF8000000000001, by decide⟩

/-- Holds of the values in the half-open interval `[0, 1)`: sign bit clear and
biased exponent below 1023. -/
def inUnitInterval (f : Float64) : Prop := f.bits < 1023 * 2 ^ 52

instance (f : Float64) : Decidable f.inUnitInterval := by
  unfold inUnitInterval; infer_instance

end Float64

/-! ## Errors and results -/

/-- The errors a handler can return: the two errors of the `certification`
interface and the two errors `json.Marshal` can report on the values compared
here (a NaN or infinite float, a raw message that is not valid JSON). -/
inductive GoError
  | ClientIdErrorError
  | CertificationErrorError (Got Wants : List Byte)
  | UnsupportedValueError (f : Float64)
  | MarshalerError (raw : List Byte)
deriving DecidableEq

/-- What a call of a handler does: return a reply, return an error, or panic
(writing to a nil map). -/
inductive Result (α : Type)
  | ok (out : α)
  | err (e : GoError)
  | panic
deriving DecidableEq

/-! ## Values compared by `isEqual` -/

/-- A `map[string]string`: `none` is the nil map, `some l` an allocated map
whose entries are enumerated in the order of `l`. -/
abbrev GoMap := Option (List (GoString × GoString))

/-- A `map[string]struct{}`: `none` is the nil map. -/
abbrev GoSet := Option (List GoString)

/-- A `[]string`: `none` is the nil slice. -/
abbrev StringSlice := Option (List GoString)

/-- The anonymous struct type of `clientState.dtoStruct`, fields in the order
of the declaration. -/
structure DtoStruct where
  Bool : GoBool
  Float : Float64
  Int : GoInt
  String : GoString
deriving DecidableEq

/-- The anonymous struct type of `MyType.Struct`. -/
structure MyTypeStruct where
  First : GoInt
  Second : GoString
deriving DecidableEq

/-- Modelled from the spec: the declaration of `certification.MyType` is not
part of the sources at hand. The compound type combines "a free-form nested
object, an enumerated string with a fixed value space, an ordered sequence of
strings, a mapping of string→string, a set of strings, a nested record
{integer, string}, and an optional string field that may be present or
absent"; the field names and Go types are those `Test09` uses. -/
structure MyType where
  Object : Option (List Byte)
  Enum : GoString
  Array : StringSlice
  Dictionary : GoMap
  Stringset : GoSet
  Struct : MyTypeStruct
  Nullable : Option GoString
deriving DecidableEq

/-- A value of one of the types `isEqual` is called with, as an `any`. -/
inductive GoValue
  | bool (b : GoBool)
  | int (n : GoInt)
  | float64 (f : Float64)
  | string (s : GoString)
  | dtoStruct (r : DtoStruct)
  | stringMap (m : GoMap)
  | stringSet (s : GoSet)
  | myType (t : MyType)
deriving DecidableEq

/-! ## `reflect.DeepEqual` -/

/-- DeepEqual on two `map[string]string`: both nil or both non-nil, the same
length, and every key of the first maps to the same value in the second. -/
def deepEqualMap (a b : GoMap) : Bool :=
  a.isNone == b.isNone &&
  (a.getD []).length == (b.getD []).length &&
  (a.getD []).all (fun kv => (b.getD []).lookup kv.1 == some kv.2)

/-- DeepEqual on two `map[string]struct{}`. -/
def deepEqualSet (a b : GoSet) : Bool :=
  a.isNone == b.isNone &&
  (a.getD []).length == (b.getD []).length &&
  (a.getD []).all (fun k => (b.getD []).contains k)

/-- DeepEqual on the record of `Test06`/`Test07`, field by field. -/
def deepEqualStruct (a b : DtoStruct) : Bool :=
  a.Bool == b.Bool && Float64.eq a.Float b.Float && a.Int == b.Int && a.String == b.String

/-- DeepEqual on `MyType`, field by field: slices are equal when both are nil
or both are not and the elements agree, pointers when both are nil or the
pointed values agree. -/
def deepEqualMyType (a b : MyType) : Bool :=
  a.Object == b.Object && a.Enum == b.Enum && a.Array == b.Array &&
  deepEqualMap a.Dictionary b.Dictionary && deepEqualSet a.Stringset b.Stringset &&
  a.Struct.First == b.Struct.First && a.Struct.Second == b.Struct.Second &&
  a.Nullable == b.Nullable

/-- Function `reflect.DeepEqual` on the values above: values of different
types are never deeply equal. -/
def DeepEqual (x y : GoValue) : Bool :=
  match x, y with
  | .bool a, .bool b => a == b
  | .int a, .int b => a == b
  | .float64 a, .float64 b => Float64.eq a b
  | .string a, .string b => a == b
  | .dtoStruct a, .dtoStruct b => deepEqualStruct a b
  | .stringMap a, .stringMap b => deepEqualMap a b
  | .stringSet a, .stringSet b => deepEqualSet a b
  | .myType a, .myType b => deepEqualMyType a b
  | _, _ => false

/-! ## `json.Marshal` -/

/-- The two library routines whose output text is left open: the decimal
text `strconv.AppendFloat` gives a finite float (after the clean-up of the
exponent that `encoding/json` applies), and the compaction with HTML escaping
that `encoding/json` applies to the bytes a `json.RawMessage` holds, which
fails when they are not one valid JSON value. -/
structure Encoding where
  appendFloat : Float64 → List Byte
  compact : List Byte → Option (List Byte)

/-- Set `htmlSafeSet` of `encoding/json`, on the bytes below `0x80`: those
that appear in a string as they are. -/
def htmlSafe (b : Byte) : Bool :=
  0x20 ≤ b.val && b.val != 0x22 && b.val != 0x26 && b.val != 0x3C && b.val != 0x3E &&
  b.val != 0x5C

/-- The digit `hex[n]` of `"0123456789abcdef"`. -/
def hexDigit (n : Nat) : Byte :=
  if n < 10 then Fin.ofNat (0x30 + n) else Fin.ofNat (0x61 + (n - 10))

/-- The escape `appendString` writes for a byte below `0x80` that is not in
`htmlSafeSet`. -/
def escapeByte (b : Byte) : List Byte :=
  if b.val = 0x5C ∨ b.val = 0x22 then [0x5C, b]
  else if b.val = 0x08 then [0x5C, 0x62]
  else if b.val = 0x0C then [0x5C, 0x66]
  else if b.val = 0x0A then [0x5C, 0x6E]
  else if b.val = 0x0D then [0x5C, 0x72]
  else if b.val = 0x09 then [0x5C, 0x74]
  else [0x5C, 0x75, 0x30, 0x30, hexDigit (b.val / 16), hexDigit (b.val % 16)]

/-- The loop of `appendString` (Go 1.22), `fuel` bounding the number of
iterations: a safe ASCII byte is copied, an unsafe one escaped, an invalid
byte becomes the six characters of the escape of U+FFFD, U+2028 and U+2029
are escaped, and every other rune is copied. -/
def appendStringAux : Nat → List Byte → List Byte
  | 0, _ => []
  | _, [] => []
  | fuel + 1, b :: rest =>
    if b.val < 0x80 then
      (if htmlSafe b then [b] else escapeByte b) ++ appendStringAux fuel rest
    else
      let d := decodeRune ((b :: rest).take 4)
      if d.1 = RuneError ∧ d.2 = 1 then
        [0x5C, 0x75, 0x66, 0x66, 0x66, 0x64] ++ appendStringAux fuel rest
      else if d.1 = 0x2028 ∨ d.1 = 0x2029 then
        [0x5C, 0x75, 0x32, 0x30, 0x32, hexDigit (d.1 % 16)] ++
          appendStringAux fuel ((b :: rest).drop d.2)
      else
        (b :: rest).take d.2 ++ appendStringAux fuel ((b :: rest).drop d.2)

/-- Function `appendString` of `encoding/json` with `escapeHTML` set: the
JSON text of a Go string. -/
def appendString (s : GoString) : List Byte :=
  0x22 :: appendStringAux s.length s ++ [0x22]

/-- JSON text of a `bool`. -/
def marshalBool (b : GoBool) : List Byte :=
  goString (if b then "true" else "false")

/-- Decimal text of a Go `int` (`strconv.AppendInt` in base 10). -/
def appendInt (n : GoInt) : List Byte :=
  match n with
  | Int.ofNat k => (Nat.toDigits 10 k).map (fun ch => Fin.ofNat ch.toNat)
  | Int.negSucc k => 0x2D :: (Nat.toDigits 10 (k + 1)).map (fun ch => Fin.ofNat ch.toNat)

/-- The text `sep`-separated concatenation of `parts`. -/
def joinWith (sep : List Byte) : List (List Byte) → List Byte
  | [] => []
  | [p] => p
  | p :: q :: ps => p ++ sep ++ joinWith sep (q :: ps)

/-- The keys of a map in the order the encoder writes them: sorted bytewise. -/
def sortEntries {β : Type} (l : List (GoString × β)) : List (GoString × β) :=
  l.insertionSort (fun a b => a.1 ≤ b.1)

/-- JSON text of a `map[string]string`: `null` for the nil map, otherwise the
entries sorted by key. -/
def marshalMap (m : GoMap) : List Byte :=
  match m with
  | none => goString "null"
  | some l =>
    [0x7B] ++ joinWith [0x2C]
      ((sortEntries l).map (fun kv => appendString kv.1 ++ [0x3A] ++ appendString kv.2)) ++ [0x7D]

/-- JSON text of a `map[string]struct{}`: every key maps to `{}`. -/
def marshalSet (s : GoSet) : List Byte :=
  match s with
  | none => goString "null"
  | some l =>
    [0x7B] ++ joinWith [0x2C]
      ((sortEntries (l.map (fun k => (k, ())))).map
        (fun kv => appendString kv.1 ++ [0x3A, 0x7B, 0x7D])) ++ [0x7D]

/-- JSON text of a `[]string`: `null` for the nil slice. -/
def marshalSlice (a : StringSlice) : List Byte :=
  match a with
  | none => goString "null"
  | some l => [0x5B] ++ joinWith [0x2C] (l.map appendString) ++ [0x5D]

/-- JSON text of a `float64`: an error for a NaN or an infinity. -/
def marshalFloat (E : Encoding) (f : Float64) : Except GoError (List Byte) :=
  if f.isInf || f.isNaN then .error (.UnsupportedValueError f) else .ok (E.appendFloat f)

/-- JSON text of the record of `Test06`/`Test07`, keys from the struct tags. -/
def marshalStruct (E : Encoding) (r : DtoStruct) : Except GoError (List Byte) :=
  match marshalFloat E r.Float with
  | .error e => .error e
  | .ok f =>
    .ok (goString "\x7b\"bool\":" ++ marshalBool r.Bool ++
      goString ",\"float\":" ++ f ++ goString ",\"int\":" ++ appendInt r.Int ++
      goString ",\"string\":" ++ appendString r.String ++ goString "\x7d")

/-- JSON text of a `json.RawMessage`: the compacted bytes, `null` standing for
a nil message; an error when the bytes are not valid JSON. -/
def marshalRaw (E : Encoding) (o : Option (List Byte)) : Except GoError (List Byte) :=
  match E.compact (o.getD (goString "null")) with
  | none => .error (.MarshalerError (o.getD (goString "null")))
  | some b => .ok b

/-- The text written for `MyType` before the `array` field. -/
def myTypeHead (o : List Byte) (t : MyType) : List Byte :=
  goString "\x7b\"object\":" ++ o ++ goString ",\"enum\":" ++ appendString t.Enum ++
    goString ",\"array\":"

/-- The text written for `MyType` after the `array` field. -/
def myTypeTail (t : MyType) : List Byte :=
  goString ",\"dictionary\":" ++ marshalMap t.Dictionary ++
    goString ",\"stringset\":" ++ marshalSet t.Stringset ++
    goString ",\"struct\":\x7b\"first\":" ++ appendInt t.Struct.First ++
    goString ",\"second\":" ++ appendString t.Struct.Second ++
    goString "\x7d,\"nullable\":" ++
    (match t.Nullable with
      | none => goString "null"
      | some s => appendString s) ++ goString "\x7d"

/-- Modelled from the spec: the struct tags of `certification.MyType` are not
part of the sources at hand; the keys are the lower-case field names, in the
order of the fields, and no field is omitted. -/
def marshalMyType (E : Encoding) (t : MyType) : Except GoError (List Byte) :=
  match marshalRaw E t.Object with
  | .error e => .error e
  | .ok o => .ok (myTypeHead o t ++ marshalSlice t.Array ++ myTypeTail t)

/-- Function `json.Marshal` on the values above. -/
def Marshal (E : Encoding) (v : GoValue) : Except GoError (List Byte) :=
  match v with
  | .bool b => .ok (marshalBool b)
  | .int n => .ok (appendInt n)
  | .float64 f => marshalFloat E f
  | .string s => .ok (appendString s)
  | .dtoStruct r => marshalStruct E r
  | .stringMap m => .ok (marshalMap m)
  | .stringSet s => .ok (marshalSet s)
  | .myType t => marshalMyType E t

/-! ## The comparator -/

/-- Method `isEqual` compares `got` and `wants`: nil (`none`) when they are
deeply equal or have the same JSON text, the marshalling error when one of
them has no JSON text, and otherwise a `CertificationErrorError` carrying
both texts. -/
def isEqual (E : Encoding) (got wants : GoValue) : Option GoError :=
  if DeepEqual got wants then none
  else
    match Marshal E got with
    | .error err => some err
    | .ok gotJSON =>
      match Marshal E wants with
      | .error err => some err
      | .ok wantsJSON =>
        if gotJSON = wantsJSON then none
        else some (.CertificationErrorError gotJSON wantsJSON)

/-! ## Client state and registry -/

/-- Struct `clientState` keeps track of values the client has to return. -/
structure clientState where
  bool : GoBool
  integer : GoInt
  float : Float64
  string : GoString
  dtoStruct : DtoStruct
  dtoMap : GoMap
  dtoSet : GoSet
  dtoMyType : MyType
deriving DecidableEq

/-- The zero value of `MyType`. -/
def MyType.zero : MyType :=
  { Object := none, Enum := [], Array := none, Dictionary := none, Stringset := none,
    Struct := { First := 0, Second := [] }, Nullable := none }

/-- Function `newState`: a zero `clientState` with both maps allocated. -/
def newState : clientState :=
  { bool := false, integer := 0, float := Float64.zero, string := [],
    dtoStruct := { Bool := false, Float := Float64.zero, Int := 0, String := [] },
    dtoMap := some [], dtoSet := some [], dtoMyType := MyType.zero }

/-- Struct `certificationBackend`: the registry of client states by token. -/
structure certificationBackend where
  clientStates : GoString → Option clientState

namespace certificationBackend

/-- The backend after `*c.clientStates[id]` is overwritten with `s`, or after
`c.clientStates[id] = &s`. -/
def set (c : certificationBackend) (id : GoString) (s : clientState) : certificationBackend :=
  ⟨fun k => if k = id then some s else c.clientStates k⟩

/-- The backend after `delete(c.clientStates, id)`. -/
def delete (c : certificationBackend) (id : GoString) : certificationBackend :=
  ⟨fun k => if k = id then none else c.clientStates k⟩

end certificationBackend

/-! ## Random values -/

/-- The runes `[]rune("abcdefghijklmnopqrstuvwxyz0123456789")`. -/
def runes : List Nat := "abcdefghijklmnopqrstuvwxyz0123456789".toList.map Char.toNat

/-- A value `rand.Float64()` can return: a float of the interval `[0, 1)`. -/
structure RandFloat64 where
  val : Float64
  inUnit : val.inUnitInterval

/-- Function `randomString` generates a random string of the specified
length; `intn i` is what the call of `rand.Intn(len(runes))` of iteration `i`
returns. -/
def randomString (length : Nat) (intn : Nat → Fin runes.length) : GoString :=
  (List.range length).flatMap (fun i => encodeRune (runes.get (intn i)))

/-! ## Requests and replies

The request and reply structs of package `certification`, with the fields
the handlers read and write. -/

structure StartOut where
  ClientId : GoString
deriving DecidableEq

structure Test01In where
  ClientId : GoString

structure Test01Out where
  Bool : GoBool
deriving DecidableEq

structure Test02In where
  ClientId : GoString
  Bool : GoBool

structure Test02Out where
  Int : GoInt
deriving DecidableEq

structure Test03In where
  ClientId : GoString
  Int : GoInt

structure Test03Out where
  Float : Float64
deriving DecidableEq

structure Test04In where
  ClientId : GoString
  Float : Float64

structure Test04Out where
  String : GoString
deriving DecidableEq

structure Test05In where
  ClientId : GoString
  String : GoString

structure Test05Out where
  Bool : GoBool
  Int : GoInt
  Float : Float64
  String : GoString
deriving DecidableEq

structure Test06In where
  ClientId : GoString
  Bool : GoBool
  Int : GoInt
  Float : Float64
  String : GoString

structure Test06Out where
  Struct : DtoStruct
deriving DecidableEq

structure Test07In where
  ClientId : GoString
  Struct : DtoStruct

structure Test07Out where
  Map : GoMap
deriving DecidableEq

structure Test08In where
  ClientId : GoString
  Map : GoMap

structure Test08Out where
  Set : GoSet
deriving DecidableEq

structure Test09In where
  ClientId : GoString
  Set : GoSet

structure Test09Out where
  Mytype : MyType
deriving DecidableEq

structure Test10In where
  ClientId : GoString
  Mytype : MyType

structure Test10Out where
  String : GoString
deriving DecidableEq

/-- Request of `Test11`; the handler only logs `LastMoreReplies`, whose type
`α` is left open. -/
structure Test11In (α : Type) where
  ClientId : GoString
  LastMoreReplies : α

structure Test11Out where
deriving DecidableEq

structure EndIn where
  ClientId : GoString

structure EndOut where
  AllOk : GoBool
deriving DecidableEq

/-! ## Handlers -/

/-- Method `newClient` generates an ID and initiates its `clientState` state. -/
def newClient (c : certificationBackend) (intn : Nat → Fin runes.length) :
    certificationBackend × GoString :=
  let clientId := randomString 32 intn
  (c.set clientId newState, clientId)

def Start (c : certificationBackend) (intn : Nat → Fin runes.length) :
    certificationBackend × Result StartOut :=
  let r := newClient c intn
  (r.1, .ok { ClientId := r.2 })

/-- Handler `Test01`; `randInt` is what `rand.Int()` returns. -/
def Test01 (c : certificationBackend) (inp : Test01In) (randInt : Nat) :
    certificationBackend × Result Test01Out :=
  match c.clientStates inp.ClientId with
  | none => (c, .err .ClientIdErrorError)
  | some state =>
    let value : GoBool := randInt % 2 == 0
    (c.set inp.ClientId { state with bool := value }, .ok { Bool := value })

/-- Handler `Test02`; `randInt` is what `rand.Int()` returns. -/
def Test02 (E : Encoding) (c : certificationBackend) (inp : Test02In) (randInt : Nat) :
    certificationBackend × Result Test02Out :=
  match c.clientStates inp.ClientId with
  | none => (c, .err .ClientIdErrorError)
  | some state =>
    match isEqual E (.bool inp.Bool) (.bool state.bool) with
    | some err => (c, .err err)
    | none =>
      let value : GoInt := Int.ofNat randInt
      (c.set inp.ClientId { state with integer := value }, .ok { Int := value })

/-- Handler `Test03`; `randFloat64` is what `rand.Float64()` returns. -/
def Test03 (E : Encoding) (c : certificationBackend) (inp : Test03In)
    (randFloat64 : RandFloat64) : certificationBackend × Result Test03Out :=
  match c.clientStates inp.ClientId with
  | none => (c, .err .ClientIdErrorError)
  | some state =>
    match isEqual E (.int inp.Int) (.int state.integer) with
    | some err => (c, .err err)
    | none =>
      let value := randFloat64.val
      (c.set inp.ClientId { state with float := value }, .ok { Float := value })

/-- Handler `Test04`; `intn` gives what the calls of `rand.Intn` return. -/
def Test04 (E : Encoding) (c : certificationBackend) (inp : Test04In)
    (intn : Nat → Fin runes.length) : certificationBackend × Result Test04Out :=
  match c.clientStates inp.ClientId with
  | none => (c, .err .ClientIdErrorError)
  | some state =>
    match isEqual E (.float64 inp.Float) (.float64 state.float) with
    | some err => (c, .err err)
    | none =>
      let value := randomString 8 intn
      (c.set inp.ClientId { state with string := value }, .ok { String := value })

def Test05 (E : Encoding) (c : certificationBackend) (inp : Test05In) :
    certificationBackend × Result Test05Out :=
  match c.clientStates inp.ClientId with
  | none => (c, .err .ClientIdErrorError)
  | some state =>
    match isEqual E (.string inp.String) (.string state.string) with
    | some err => (c, .err err)
    | none =>
      (c, .ok { Bool := state.bool, Int := state.integer, Float := state.float,
                String := state.string })

def Test06 (E : Encoding) (c : certificationBackend) (inp : Test06In) :
    certificationBackend × Result Test06Out :=
  match c.clientStates inp.ClientId with
  | none => (c, .err .ClientIdErrorError)
  | some state =>
    match isEqual E (.bool inp.Bool) (.bool state.bool) with
    | some err => (c, .err err)
    | none =>
      match isEqual E (.int inp.Int) (.int state.integer) with
      | some err => (c, .err err)
      | none =>
        match isEqual E (.float64 inp.Float) (.float64 state.float) with
        | some err => (c, .err err)
        | none =>
          match isEqual E (.string inp.String) (.string state.string) with
          | some err => (c, .err err)
          | none =>
            let dtoStruct : DtoStruct :=
              { state.dtoStruct with
                Bool := inp.Bool, Int := inp.Int, Float := inp.Float, String := inp.String }
            (c.set inp.ClientId { state with dtoStruct := dtoStruct }, .ok { Struct := dtoStruct })

/-- Handler `Test07`; `intn` gives what the calls of `rand.Intn` return, the
eight of the first `randomString(8)` and then the eight of the second. -/
def Test07 (E : Encoding) (c : certificationBackend) (inp : Test07In)
    (intn : Nat → Fin runes.length) : certificationBackend × Result Test07Out :=
  match c.clientStates inp.ClientId with
  | none => (c, .err .ClientIdErrorError)
  | some state =>
    match isEqual E (.dtoStruct inp.Struct) (.dtoStruct state.dtoStruct) with
    | some err => (c, .err err)
    | none =>
      let dtoMap : GoMap :=
        some [(goString "key1", randomString 8 intn),
              (goString "key2", randomString 8 (fun i => intn (8 + i)))]
      (c.set inp.ClientId { state with dtoMap := dtoMap }, .ok { Map := dtoMap })

/-- The statement `set[k] = struct{}{}`; `none` is the panic of an assignment
to an entry of a nil map. -/
def setInsert (set : GoSet) (k : GoString) : Option GoSet :=
  match set with
  | none => none
  | some l => some (some (if k ∈ l then l else l ++ [k]))

/-- The loop `for k := range keys { set[k] = struct{}{} }`. -/
def rangeInsert (set : GoSet) : List GoString → Option GoSet
  | [] => some set
  | k :: ks =>
    match setInsert set k with
    | none => none
    | some set' => rangeInsert set' ks

def Test08 (E : Encoding) (c : certificationBackend) (inp : Test08In) :
    certificationBackend × Result Test08Out :=
  match c.clientStates inp.ClientId with
  | none => (c, .err .ClientIdErrorError)
  | some state =>
    match isEqual E (.stringMap inp.Map) (.stringMap state.dtoMap) with
    | some err => (c, .err err)
    | none =>
      match rangeInsert state.dtoSet ((state.dtoMap.getD []).map Prod.fst) with
      | none => (c, .panic)
      | some dtoSet =>
        (c.set inp.ClientId { state with dtoSet := dtoSet }, .ok { Set := dtoSet })

def Test09 (E : Encoding) (c : certificationBackend) (inp : Test09In) :
    certificationBackend × Result Test09Out :=
  match c.clientStates inp.ClientId with
  | none => (c, .err .ClientIdErrorError)
  | some state =>
    match isEqual E (.stringSet inp.Set) (.stringSet state.dtoSet) with
    | some err => (c, .err err)
    | none =>
      let myType : MyType :=
        { Object := some (goString "\x7b\"foo\":\"bar\"\x7d"),
          Enum := goString "two",
          Array := some [goString "one", goString "two", goString "three"],
          Dictionary := some [(goString "key1", goString "value1"),
                              (goString "key2", goString "value2")],
          Stringset := some [goString "set1", goString "set2"],
          Struct := { First := state.integer, Second := state.string },
          Nullable := none }
      let nullable := goString "nullable-value"
      let myType := { myType with Nullable := some nullable }
      (c.set inp.ClientId { state with dtoMyType := myType }, .ok { Mytype := myType })

def Test10 (E : Encoding) (c : certificationBackend) (inp : Test10In) :
    certificationBackend × Result Test10Out :=
  match c.clientStates inp.ClientId with
  | none => (c, .err .ClientIdErrorError)
  | some state =>
    match isEqual E (.myType inp.Mytype) (.myType state.dtoMyType) with
    | some err => (c, .err err)
    | none =>
      let reply := goString "test10-reply"
      (c, .ok { String := reply })

def Test11 {α : Type} (c : certificationBackend) (inp : Test11In α) :
    certificationBackend × Result Test11Out :=
  match c.clientStates inp.ClientId with
  | none => (c, .err .ClientIdErrorError)
  | some _ => (c, .ok {})

def End (c : certificationBackend) (inp : EndIn) : certificationBackend × Result EndOut :=
  match c.clientStates inp.ClientId with
  | none => (c, .err .ClientIdErrorError)
  | some _ => (c.delete inp.ClientId, .ok { AllOk := true })

/-! ## Definitions used to state the claims -/

/-- The compound value `Test09` builds in a session whose state is `st`. -/
def builtMyType (st : clientState) : MyType :=
  { Object := some (goString "\x7b\"foo\":\"bar\"\x7d"),
    Enum := goString "two",
    Array := some [goString "one", goString "two", goString "three"],
    Dictionary := some [(goString "key1", goString "value1"),
                        (goString "key2", goString "value2")],
    Stringset := some [goString "set1", goString "set2"],
    Struct := { First := st.integer, Second := st.string },
    Nullable := some (goString "nullable-value") }

/-- The backend `server` creates: no client yet. -/
def emptyBackend : certificationBackend := ⟨fun _ => none⟩

/-- The draws of `rand.Intn` that all return `0`. -/
def zeroDraws : Nat → Fin runes.length := fun _ => ⟨0, by decide⟩

/-- An `Encoding` to evaluate the handlers on concrete inputs: every float is
written `0` and every raw message is taken as it is. -/
def sampleEncoding : Encoding := ⟨fun _ => [0x30], fun b => some b⟩

/-- The bool a JSON text decodes to, for the two literals `true` and `false`. -/
def unmarshalBool (j : List Byte) : Option GoBool :=
  if j = goString "true" then some true
  else if j = goString "false" then some false
  else none

/-- A call that took the backend from `c` to `c'` kept the set of tokens and
the state of every session other than `T`. -/
def KeepsOthers (T : GoString) (c c' : certificationBackend) : Prop :=
  (∀ k, (c'.clientStates k).isSome = (c.clientStates k).isSome) ∧
  ∀ k, k ≠ T → c'.clientStates k = c.clientStates k

/-- The token `Start` returns when every draw is `0`: thirty-two `a`. -/
def tokenA : GoString := randomString 32 zeroDraws

/-- A registry in which `tokenA` already names a session, one whose stored
bool is `true`. -/
def backendA : certificationBackend :=
  emptyBackend.set tokenA { newState with bool := true }

/-- The value has a JSON text: `json.Marshal` returns no error on it. -/
def HasJSON (E : Encoding) (v : GoValue) : Prop := ∃ j, Marshal E v = .ok j

/-- The float is neither a NaN nor an infinity. -/
def Float64.isFinite (f : Float64) : Bool := !f.isInf && !f.isNaN

/-- The error is a `CertificationErrorError`. -/
def IsCertificationError (e : GoError) : Prop := ∃ g w, e = .CertificationErrorError g w

/-- Function `utf8.ValidString`, `fuel` bounding the number of runes: no rune
of the string decodes to `(RuneError, 1)`. -/
def validStringAux : Nat → List Byte → Bool
  | 0, s => s.isEmpty
  | _, [] => true
  | fuel + 1, b :: rest =>
    if b.val < 0x80 then validStringAux fuel rest
    else
      let d := decodeRune ((b :: rest).take 4)
      if d.1 = RuneError ∧ d.2 = 1 then false
      else validStringAux fuel ((b :: rest).drop d.2)

/-- The string is valid UTF-8 (`utf8.ValidString`). -/
def validString (s : GoString) : Bool := validStringAux s.length s

/-! ## Reading back the text of a string -/

/-- Value of a hexadecimal digit among `0`-`9`, `a`-`f`. -/
def hexValue (b : Byte) : Option Nat :=
  if 0x30 ≤ b.val ∧ b.val ≤ 0x39 then some (b.val - 0x30)
  else if 0x61 ≤ b.val ∧ b.val ≤ 0x66 then some (b.val - 0x61 + 10)
  else none

/-- The bytes an escape `\uXXXX` that `appendString` writes stands for: a
byte below `0x80`, or the encoding of U+2028 or U+2029. -/
def unicodeEscape (h1 h2 h3 h4 : Byte) : Option (List Byte) :=
  match hexValue h1, hexValue h2, hexValue h3, hexValue h4 with
  | some a, some b, some c, some d =>
    let r := ((a * 16 + b) * 16 + c) * 16 + d
    if r < 0x80 then some [Fin.ofNat r]
    else if r = 0x2028 ∨ r = 0x2029 then some (encodeRune r)
    else none
  | _, _, _, _ => none

/-- The byte a two-character escape stands for. -/
def simpleEscape (e : Byte) : Option Byte :=
  if e.val = 0x5C ∨ e.val = 0x22 then some e
  else if e.val = 0x62 then some 0x08
  else if e.val = 0x66 then some 0x0C
  else if e.val = 0x6E then some 0x0A
  else if e.val = 0x72 then some 0x0D
  else if e.val = 0x74 then some 0x09
  else none

/-- Reads the text of a JSON string from after its opening quote up to its
closing quote: the bytes of the string and the text that follows the closing
quote. -/
def readString : List Byte → Option (GoString × List Byte)
  | [] => none
  | b :: rest =>
    if b.val = 0x22 then some ([], rest)
    else if b.val = 0x5C then
      match rest with
      | [] => none
      | e :: rest1 =>
        if e.val = 0x75 then
          match rest1 with
          | h1 :: h2 :: h3 :: h4 :: rest2 =>
            match unicodeEscape h1 h2 h3 h4, readString rest2 with
            | some bs, some p => some (bs ++ p.1, p.2)
            | _, _ => none
          | _ => none
        else
          match simpleEscape e, readString rest1 with
          | some c, some p => some (c :: p.1, p.2)
          | _, _ => none
    else
      match readString rest with
      | some p => some (b :: p.1, p.2)
      | none => none

/-- A compound value whose array holds one string, the invalid byte `0xFF`. -/
def myTypeFF : MyType := { builtMyType newState with Array := some [[0xFF]] }

/-- The same compound value with the byte `0xFE` in place of `0xFF`. -/
def myTypeFE : MyType := { builtMyType newState with Array := some [[0xFE]] }

/-- The compound value `Test09` builds in a fresh session, with the first two
elements of its array swapped. -/
def myTypeSwapped : MyType :=
  { builtMyType newState with Array := some [goString "two", goString "one", goString "three"] }

/-- The byte is a lowercase letter `a`-`z` or a digit `0`-`9`. -/
def isLowerOrDigit (b : Byte) : Bool :=
  (0x61 ≤ b.val && b.val ≤ 0x7A) || (0x30 ≤ b.val && b.val ≤ 0x39)

/-- One call of a handler, with any arguments and any random draws, takes the
backend from the first state to the second. -/
inductive Step (E : Encoding) : certificationBackend → certificationBackend → Prop
  | start (c : certificationBackend) (intn : Nat → Fin runes.length) :
      Step E c (Start c intn).1
  | test01 (c : certificationBackend) (inp : Test01In) (r : Nat) : Step E c (Test01 c inp r).1
  | test02 (c : certificationBackend) (inp : Test02In) (r : Nat) :
      Step E c (Test02 E c inp r).1
  | test03 (c : certificationBackend) (inp : Test03In) (r : RandFloat64) :
      Step E c (Test03 E c inp r).1
  | test04 (c : certificationBackend) (inp : Test04In) (intn : Nat → Fin runes.length) :
      Step E c (Test04 E c inp intn).1
  | test05 (c : certificationBackend) (inp : Test05In) : Step E c (Test05 E c inp).1
  | test06 (c : certificationBackend) (inp : Test06In) : Step E c (Test06 E c inp).1
  | test07 (c : certificationBackend) (inp : Test07In) (intn : Nat → Fin runes.length) :
      Step E c (Test07 E c inp intn).1
  | test08 (c : certificationBackend) (inp : Test08In) : Step E c (Test08 E c inp).1
  | test09 (c : certificationBackend) (inp : Test09In) : Step E c (Test09 E c inp).1
  | test10 (c : certificationBackend) (inp : Test10In) : Step E c (Test10 E c inp).1
  | test11 {α : Type} (c : certificationBackend) (inp : Test11In α) :
      Step E c (Test11 c inp).1
  | finish (c : certificationBackend) (inp : EndIn) : Step E c (End c inp).1

/-- The backend `c'` is reached from `c` by a sequence of handler calls. -/
def Reachable (E : Encoding) (c c' : certificationBackend) : Prop :=
  Relation.ReflTransGen (Step E) c c'

/-- The stored map and set of a session are in step: either both are empty,
or the map is one `Test07` stored, with the keys `key1` and `key2`, and the
set is empty or holds these two keys. -/
def SetFollowsMap (st : clientState) : Prop :=
  (st.dtoMap = some [] ∧ st.dtoSet = some []) ∨
  ((∃ a b, st.dtoMap = some [(goString "key1", a), (goString "key2", b)]) ∧
    (st.dtoSet = some [] ∨ st.dtoSet = some [goString "key1", goString "key2"]))

/-- The session of token `T`, when there is one, has its set and map in step. -/
def SetFollowsMapAt (T : GoString) (c : certificationBackend) : Prop :=
  ∀ st, c.clientStates T = some st → SetFollowsMap st

/-- A `map[string]string` as Go builds one, whose strings are valid UTF-8:
no key occurs twice, and every key and value is valid. -/
def ValidMap (m : GoMap) : Prop :=
  ((m.getD []).map Prod.fst).Nodup ∧
  ∀ kv ∈ m.getD [], validString kv.1 = true ∧ validString kv.2 = true

/-! ## Basic facts -/

theorem Float64.not_isNaN_of_inUnit (f : Float64) (h : f.inUnitInterval) : f.isNaN = false := by
  have h1 : f.bits / 2 ^ 52 % 2048 < 1023 := by
    unfold Float64.inUnitInterval at h
    norm_num at h ⊢
    omega
  simp only [Float64.isNaN, Float64.exponent, Bool.and_eq_false_imp, beq_iff_eq]
  intro h2
  omega

theorem Float64.eq_self (f : Float64) (h : f.isNaN = false) : Float64.eq f f = true := by
  simp [Float64.eq, h]

theorem set_same (c : certificationBackend) (id : GoString) (s : clientState) :
    (c.set id s).clientStates id = some s := by
  simp [certificationBackend.set]

theorem set_other (c : certificationBackend) (id k : GoString) (s : clientState) (h : k ≠ id) :
    (c.set id s).clientStates k = c.clientStates k := by
  simp [certificationBackend.set, h]

theorem isEqual_of_deepEqual (E : Encoding) (x y : GoValue) (h : DeepEqual x y = true) :
    isEqual E x y = none := by
  simp [isEqual, h]

/-! ### A handler succeeds on the value the state holds -/

theorem Test01_ok (c : certificationBackend) (id : GoString) (st : clientState) (r : Nat)
    (h : c.clientStates id = some st) :
    Test01 c ⟨id⟩ r =
      (c.set id { st with bool := r % 2 == 0 }, .ok { Bool := r % 2 == 0 }) := by
  simp [Test01, h]

theorem Test02_ok (E : Encoding) (c : certificationBackend) (id : GoString) (st : clientState)
    (r : Nat) (h : c.clientStates id = some st) :
    Test02 E c ⟨id, st.bool⟩ r =
      (c.set id { st with integer := Int.ofNat r }, .ok { Int := Int.ofNat r }) := by
  have e : isEqual E (.bool st.bool) (.bool st.bool) = none :=
    isEqual_of_deepEqual E _ _ (by simp [DeepEqual])
  simp [Test02, h, e]

theorem Test03_ok (E : Encoding) (c : certificationBackend) (id : GoString) (st : clientState)
    (r : RandFloat64) (h : c.clientStates id = some st) :
    Test03 E c ⟨id, st.integer⟩ r =
      (c.set id { st with float := r.val }, .ok { Float := r.val }) := by
  have e : isEqual E (.int st.integer) (.int st.integer) = none :=
    isEqual_of_deepEqual E _ _ (by simp [DeepEqual])
  simp [Test03, h, e]

theorem Test04_ok (E : Encoding) (c : certificationBackend) (id : GoString) (st : clientState)
    (intn : Nat → Fin runes.length) (h : c.clientStates id = some st)
    (hf : st.float.isNaN = false) :
    Test04 E c ⟨id, st.float⟩ intn =
      (c.set id { st with string := randomString 8 intn },
        .ok { String := randomString 8 intn }) := by
  have e : isEqual E (.float64 st.float) (.float64 st.float) = none :=
    isEqual_of_deepEqual E _ _ (by simp [DeepEqual, Float64.eq_self _ hf])
  simp [Test04, h, e]

theorem Test05_ok (E : Encoding) (c : certificationBackend) (id : GoString) (st : clientState)
    (h : c.clientStates id = some st) :
    Test05 E c ⟨id, st.string⟩ =
      (c, .ok { Bool := st.bool, Int := st.integer, Float := st.float,
                String := st.string }) := by
  have e : isEqual E (.string st.string) (.string st.string) = none :=
    isEqual_of_deepEqual E _ _ (by simp [DeepEqual])
  simp [Test05, h, e]

theorem Test06_ok (E : Encoding) (c : certificationBackend) (id : GoString) (st : clientState)
    (h : c.clientStates id = some st) (hf : st.float.isNaN = false) :
    Test06 E c ⟨id, st.bool, st.integer, st.float, st.string⟩ =
      (c.set id { st with dtoStruct := ⟨st.bool, st.float, st.integer, st.string⟩ },
        .ok { Struct := ⟨st.bool, st.float, st.integer, st.string⟩ }) := by
  have e1 : isEqual E (.bool st.bool) (.bool st.bool) = none :=
    isEqual_of_deepEqual E _ _ (by simp [DeepEqual])
  have e2 : isEqual E (.int st.integer) (.int st.integer) = none :=
    isEqual_of_deepEqual E _ _ (by simp [DeepEqual])
  have e3 : isEqual E (.float64 st.float) (.float64 st.float) = none :=
    isEqual_of_deepEqual E _ _ (by simp [DeepEqual, Float64.eq_self _ hf])
  have e4 : isEqual E (.string st.string) (.string st.string) = none :=
    isEqual_of_deepEqual E _ _ (by simp [DeepEqual])
  simp [Test06, h, e1, e2, e3, e4]

theorem Test07_ok (E : Encoding) (c : certificationBackend) (id : GoString) (st : clientState)
    (intn : Nat → Fin runes.length) (h : c.clientStates id = some st)
    (hf : st.dtoStruct.Float.isNaN = false) :
    Test07 E c ⟨id, st.dtoStruct⟩ intn =
      (c.set id { st with dtoMap := some [(goString "key1", randomString 8 intn),
          (goString "key2", randomString 8 (fun i => intn (8 + i)))] },
        .ok { Map := some [(goString "key1", randomString 8 intn),
          (goString "key2", randomString 8 (fun i => intn (8 + i)))] }) := by
  have e : isEqual E (.dtoStruct st.dtoStruct) (.dtoStruct st.dtoStruct) = none :=
    isEqual_of_deepEqual E _ _ (by simp [DeepEqual, deepEqualStruct, Float64.eq_self _ hf])
  simp [Test07, h, e]

/-! ### Maps and sets with the same content are deeply equal -/

theorem lookup_of_mem {β : Type} (l : List (GoString × β)) (k : GoString) (v : β)
    (hn : (l.map Prod.fst).Nodup) (hm : (k, v) ∈ l) : l.lookup k = some v := by
  induction l with
  | nil => simp at hm
  | cons p l ih =>
    obtain ⟨k', v'⟩ := p
    simp only [List.map_cons, List.nodup_cons, List.mem_map, Prod.exists, exists_and_right,
      exists_eq_right, not_exists] at hn
    simp only [List.mem_cons, Prod.mk.injEq] at hm
    rcases hm with ⟨rfl, rfl⟩ | hm
    · simp [List.lookup]
    · have hne : k ≠ k' := by
        rintro rfl
        exact hn.1 v hm
      have hb : (k == k') = false := by simpa using hne
      simp only [List.lookup, hb]
      exact ih hn.2 hm

theorem length_eq_of_same_mem {γ : Type} (a b : List γ) (ha : a.Nodup) (hb : b.Nodup)
    (h : ∀ x, x ∈ a ↔ x ∈ b) : a.length = b.length :=
  ((List.perm_ext_iff_of_nodup ha hb).2 h).length_eq

theorem nodup_of_nodup_keys {β : Type} (l : List (GoString × β))
    (hn : (l.map Prod.fst).Nodup) : l.Nodup :=
  List.Nodup.of_map _ hn

theorem deepEqualMap_of_same_entries (a b : List (GoString × GoString))
    (ha : (a.map Prod.fst).Nodup) (hb : (b.map Prod.fst).Nodup)
    (h : ∀ kv, kv ∈ a ↔ kv ∈ b) : deepEqualMap (some a) (some b) = true := by
  have hl := length_eq_of_same_mem a b (nodup_of_nodup_keys a ha) (nodup_of_nodup_keys b hb) h
  simp only [deepEqualMap, Option.isNone_some, beq_self_eq_true, Option.getD_some, hl,
    Bool.true_and, List.all_eq_true, beq_iff_eq]
  intro kv hkv
  exact lookup_of_mem b kv.1 kv.2 hb ((h kv).1 hkv)

theorem deepEqualSet_of_same_members (a b : List GoString) (ha : a.Nodup) (hb : b.Nodup)
    (h : ∀ k, k ∈ a ↔ k ∈ b) : deepEqualSet (some a) (some b) = true := by
  have hl := length_eq_of_same_mem a b ha hb h
  simp only [deepEqualSet, Option.isNone_some, beq_self_eq_true, Option.getD_some, hl,
    Bool.true_and, List.all_eq_true]
  intro k hk
  simpa using (h k).1 hk

theorem Test08_ok (E : Encoding) (c : certificationBackend) (id : GoString) (st : clientState)
    (m : List (GoString × GoString)) (set : GoSet) (h : c.clientStates id = some st)
    (hm : st.dtoMap = some m) (hn : (m.map Prod.fst).Nodup)
    (hr : rangeInsert st.dtoSet (m.map Prod.fst) = some set) :
    Test08 E c ⟨id, st.dtoMap⟩ =
      (c.set id { st with dtoSet := set }, .ok { Set := set }) := by
  have e : isEqual E (.stringMap st.dtoMap) (.stringMap st.dtoMap) = none := by
    rw [hm]
    exact isEqual_of_deepEqual E _ _
      (by simpa [DeepEqual] using deepEqualMap_of_same_entries m m hn hn (fun _ => Iff.rfl))
  have hr' : rangeInsert st.dtoSet (List.map Prod.fst (st.dtoMap.getD [])) = some set := by
    rw [hm]; exact hr
  simp [Test08, h, e, hr']

theorem deepEqualMyType_built (st : clientState) :
    deepEqualMyType (builtMyType st) (builtMyType st) = true := by
  have hd : deepEqualMap (builtMyType st).Dictionary (builtMyType st).Dictionary = true :=
    deepEqualMap_of_same_entries _ _ (by decide) (by decide) (fun _ => Iff.rfl)
  have hs : deepEqualSet (builtMyType st).Stringset (builtMyType st).Stringset = true :=
    deepEqualSet_of_same_members _ _ (by decide) (by decide) (fun _ => Iff.rfl)
  simp [deepEqualMyType, hd, hs]

theorem Test09_ok (E : Encoding) (c : certificationBackend) (id : GoString) (st : clientState)
    (l : List GoString) (h : c.clientStates id = some st) (hs : st.dtoSet = some l)
    (hn : l.Nodup) :
    Test09 E c ⟨id, st.dtoSet⟩ =
      (c.set id { st with dtoMyType := builtMyType st }, .ok { Mytype := builtMyType st }) := by
  have e : isEqual E (.stringSet st.dtoSet) (.stringSet st.dtoSet) = none := by
    rw [hs]
    exact isEqual_of_deepEqual E _ _
      (by simpa [DeepEqual] using deepEqualSet_of_same_members l l hn hn (fun _ => Iff.rfl))
  simp only [Test09, h, e]
  rfl

theorem Test10_ok (E : Encoding) (c : certificationBackend) (id : GoString) (st : clientState)
    (h : c.clientStates id = some st)
    (he : deepEqualMyType st.dtoMyType st.dtoMyType = true) :
    Test10 E c ⟨id, st.dtoMyType⟩ = (c, .ok { String := goString "test10-reply" }) := by
  have e : isEqual E (.myType st.dtoMyType) (.myType st.dtoMyType) = none :=
    isEqual_of_deepEqual E _ _ (by simpa [DeepEqual] using he)
  simp [Test10, h, e]

theorem Test11_ok {α : Type} (c : certificationBackend) (id : GoString) (st : clientState)
    (flag : α) (h : c.clientStates id = some st) :
    Test11 c ⟨id, flag⟩ = (c, .ok {}) := by
  simp [Test11, h]

theorem End_ok (c : certificationBackend) (id : GoString) (st : clientState)
    (h : c.clientStates id = some st) :
    End c ⟨id⟩ = (c.delete id, .ok { AllOk := true }) := by
  simp [End, h]

theorem key12_nodup : [goString "key1", goString "key2"].Nodup := by decide

theorem rangeInsert_key12 :
    rangeInsert (some []) [goString "key1", goString "key2"] =
      some (some [goString "key1", goString "key2"]) := by decide

theorem keepsOthers_refl (T : GoString) (c : certificationBackend) : KeepsOthers T c c :=
  ⟨fun _ => rfl, fun _ _ => rfl⟩

theorem keepsOthers_set (T : GoString) (c : certificationBackend) (st s : clientState)
    (h : c.clientStates T = some st) : KeepsOthers T c (c.set T s) := by
  refine ⟨fun k => ?_, fun k hk => set_other c T k s hk⟩
  by_cases hk : k = T
  · subst hk; simp [set_same, h]
  · rw [set_other c T k s hk]

/-! ### The errors of `isEqual` -/

theorem isEqual_error (E : Encoding) (got wants : GoValue) (e : GoError)
    (h : isEqual E got wants = some e) :
    Marshal E got = .error e ∨
    (∃ g, Marshal E got = .ok g ∧ Marshal E wants = .error e) ∨
    ∃ g w, Marshal E got = .ok g ∧ Marshal E wants = .ok w ∧ g ≠ w ∧
      e = .CertificationErrorError g w := by
  unfold isEqual at h
  split at h
  · exact Option.noConfusion h
  · split at h
    · left
      rename_i err hg
      rw [hg]; simp only [Option.some.injEq] at h; rw [h]
    · rename_i g hg
      split at h
      · right; left
        rename_i err hw
        simp only [Option.some.injEq] at h
        exact ⟨g, hg, by rw [hw, h]⟩
      · rename_i w hw
        right; right
        split at h
        · exact Option.noConfusion h
        · rename_i hne
          simp only [Option.some.injEq] at h
          exact ⟨g, w, hg, hw, hne, h.symm⟩

theorem isEqual_error_of_hasJSON (E : Encoding) (got wants : GoValue) (e : GoError)
    (h : isEqual E got wants = some e) (hg : HasJSON E got) (hw : HasJSON E wants) :
    ∃ g w, Marshal E got = .ok g ∧ Marshal E wants = .ok w ∧
      e = .CertificationErrorError g w := by
  obtain ⟨g0, hg0⟩ := hg
  obtain ⟨w0, hw0⟩ := hw
  rcases isEqual_error E got wants e h with h1 | ⟨g, _, h2⟩ | ⟨g, w, h1, h2, _, h3⟩
  · rw [hg0] at h1; exact Except.noConfusion h1
  · rw [hw0] at h2; exact Except.noConfusion h2
  · exact ⟨g, w, h1, h2, h3⟩

theorem hasJSON_float (E : Encoding) (f : Float64) (h : f.isFinite = true) :
    HasJSON E (.float64 f) := by
  simp only [Float64.isFinite, Bool.and_eq_true, Bool.not_eq_eq_eq_not, Bool.not_true] at h
  exact ⟨E.appendFloat f, by simp [Marshal, marshalFloat, h.1, h.2]⟩

theorem hasJSON_struct (E : Encoding) (r : DtoStruct) (h : r.Float.isFinite = true) :
    HasJSON E (.dtoStruct r) := by
  simp only [Float64.isFinite, Bool.and_eq_true, Bool.not_eq_eq_eq_not, Bool.not_true] at h
  exact ⟨_, by simp only [Marshal, marshalStruct, marshalFloat, h.1, h.2]; rfl⟩

theorem hasJSON_myType (E : Encoding) (t : MyType) (o : List Byte)
    (h : E.compact (t.Object.getD (goString "null")) = some o) : HasJSON E (.myType t) :=
  ⟨_, by simp only [Marshal, marshalMyType, marshalRaw, h]; rfl⟩

theorem isCertificationError_of_isEqual (E : Encoding) (got wants : GoValue) (e : GoError)
    (h : isEqual E got wants = some e) (hg : HasJSON E got) (hw : HasJSON E wants) :
    IsCertificationError e := by
  obtain ⟨g, w, _, _, he⟩ := isEqual_error_of_hasJSON E got wants e h hg hw
  exact ⟨g, w, he⟩

/-! ### Decoding a rune -/

theorem utf8First_spec (b : Nat) (hb : 0x80 ≤ b) :
    utf8First b = 0xF1 ∨
    (utf8First b < 0xF0 ∧
      (utf8First b % 8 = 2 ∨ utf8First b % 8 = 3 ∨ utf8First b % 8 = 4) ∧
      0x80 ≤ (acceptRanges (utf8First b / 16)).1) := by
  unfold utf8First
  split_ifs <;> simp [acceptRanges]
  omega

theorem decodeRune_valid (b : Byte) (t : List Byte) (hb : 0x80 ≤ b.val)
    (hv : ¬ ((decodeRune ((b :: t).take 4)).1 = RuneError ∧
      (decodeRune ((b :: t).take 4)).2 = 1)) :
    2 ≤ (decodeRune ((b :: t).take 4)).2 ∧
    (decodeRune ((b :: t).take 4)).2 ≤ (b :: t).length ∧
    ∀ x ∈ (b :: t).take (decodeRune ((b :: t).take 4)).2, 0x80 ≤ x.val := by
  rcases utf8First_spec b.val hb with h | ⟨h1, h2, h3⟩
  · exfalso; apply hv
    simp [decodeRune, h, RuneError]
  · have h1' : ¬ (240 ≤ utf8First b.val) := by omega
    rcases t with _ | ⟨s1, _ | ⟨s2, _ | ⟨s3, t3⟩⟩⟩
    all_goals
      revert hv
      simp only [decodeRune, List.take, List.length, h1', if_false]
      generalize utf8First b.val = x at *
      generalize acceptRanges (x / 16) = acc at *
      split_ifs
      all_goals simp [RuneError]
      all_goals omega

/-! ### Reading back what `appendString` wrote -/

theorem readString_cons_of_plain (b : Byte) (X : List Byte) (h1 : b.val ≠ 0x22)
    (h2 : b.val ≠ 0x5C) :
    readString (b :: X) = (readString X).map (fun p => (b :: p.1, p.2)) := by
  rw [readString.eq_def]
  simp only [h1, h2, if_false]
  cases readString X <;> rfl

theorem readString_append_of_high (l X : List Byte) (h : ∀ x ∈ l, 0x80 ≤ x.val) :
    readString (l ++ X) = (readString X).map (fun p => (l ++ p.1, p.2)) := by
  induction l with
  | nil => cases h' : readString X <;> simp [h']
  | cons b l ih =>
    have hb := h b (List.mem_cons_self _ _)
    rw [List.cons_append, readString_cons_of_plain b _ (by omega) (by omega),
      ih (fun x hx => h x (List.mem_cons_of_mem _ hx))]
    cases readString X <;> rfl

set_option maxRecDepth 100000 in
theorem unicodeEscape_low : ∀ b : Byte, b.val < 0x80 →
    unicodeEscape 0x30 0x30 (hexDigit (b.val / 16)) (hexDigit (b.val % 16)) = some [b] := by
  decide

set_option maxRecDepth 100000 in
theorem escapeByte_cases : ∀ b : Byte, b.val < 0x80 → htmlSafe b = false →
    (escapeByte b = [0x5C, 0x75, 0x30, 0x30, hexDigit (b.val / 16), hexDigit (b.val % 16)]) ∨
    (∃ e : Byte, escapeByte b = [0x5C, e] ∧ e.val ≠ 0x75 ∧ simpleEscape e = some b) := by
  decide

theorem readString_escapeByte (b : Byte) (X : List Byte) (h1 : b.val < 0x80)
    (h2 : htmlSafe b = false) :
    readString (escapeByte b ++ X) = (readString X).map (fun p => (b :: p.1, p.2)) := by
  rcases escapeByte_cases b h1 h2 with h | ⟨e, he, hne, hs⟩
  · rw [h, readString.eq_def]
    simp only [List.cons_append, List.nil_append, unicodeEscape_low b h1]
    cases readString X <;> simp +decide
  · rw [he, readString.eq_def]
    simp only [List.cons_append, List.nil_append, hne, hs]
    cases readString X <;> simp +decide

theorem readString_escape_202x (r : Nat) (X : List Byte) (h : r = 0x2028 ∨ r = 0x2029) :
    readString ([0x5C, 0x75, 0x32, 0x30, 0x32, hexDigit (r % 16)] ++ X) =
      (readString X).map (fun p => (encodeRune r ++ p.1, p.2)) := by
  have hu : unicodeEscape 0x32 0x30 0x32 (hexDigit (r % 16)) = some (encodeRune r) := by
    rcases h with rfl | rfl <;> decide
  rw [readString.eq_def]
  simp only [List.cons_append, List.nil_append, hu]
  cases readString X
  · simp +decide
  · simp +decide

theorem utf8First_sizes (b : Nat) (hx : utf8First b < 0xF0) :
    0x80 ≤ (acceptRanges (utf8First b / 16)).1 ∧ (acceptRanges (utf8First b / 16)).2 ≤ 0xBF ∧
    ((utf8First b % 8 = 2 ∧ 0xC2 ≤ b ∧ b ≤ 0xDF) ∨
     (utf8First b % 8 = 3 ∧ 0xE0 ≤ b ∧ b ≤ 0xEF) ∨
     (utf8First b % 8 = 4 ∧ 0xF0 ≤ b ∧ b ≤ 0xF4 ∧
        (b = 0xF0 → 0x90 ≤ (acceptRanges (utf8First b / 16)).1))) := by
  revert hx
  unfold utf8First
  split_ifs <;> simp [acceptRanges] <;> omega

theorem decodeRune_202x (b : Byte) (t : List Byte) (r : Nat)
    (hr : r = 0x2028 ∨ r = 0x2029) (h : (decodeRune ((b :: t).take 4)).1 = r) :
    (decodeRune ((b :: t).take 4)).2 = 3 ∧ (b :: t).take 3 = encodeRune r := by
  have hb' := b.isLt
  by_cases hx : utf8First b.val < 0xF0
  · have hb : 0x80 ≤ b.val := by
      by_contra hlt
      have : utf8First b.val = 0xF0 := by simp [utf8First]; omega
      omega
    obtain ⟨a1, a2, hsz⟩ := utf8First_sizes b.val hx
    have h1' : ¬ (240 ≤ utf8First b.val) := by omega
    have e1 : encodeRune r = [0xE2, 0x80, Fin.ofNat (0xA8 + (r - 0x2028))] := by
      rcases hr with rfl | rfl <;> decide
    rw [e1]
    rcases t with _ | ⟨s1, _ | ⟨s2, _ | ⟨s3, t3⟩⟩⟩
    all_goals
      revert h
      simp only [decodeRune, List.take, List.length, h1', if_false]
      generalize utf8First b.val = x at *
      generalize acceptRanges (x / 16) = acc at *
      split_ifs
      all_goals simp only [RuneError, List.cons.injEq, and_true, true_and]
      all_goals first
        | (intro h; exfalso; omega)
        | (intro h
           refine ⟨Fin.ext ?_, Fin.ext ?_, Fin.ext ?_⟩
           · show b.val = 226
             omega
           · show s1.val = 128
             omega
           · show _ = (168 + (r - 8232)) % 256
             omega)
  · exfalso
    have h0 : (decodeRune ((b :: t).take 4)).1 = RuneError ∨
        (decodeRune ((b :: t).take 4)).1 = b.val := by
      simp only [List.take, decodeRune, show 240 ≤ utf8First b.val by omega, if_true]
      by_cases hq : utf8First b.val = 241 <;> simp [hq]
    rcases h0 with h0 | h0
    · rw [h0] at h; simp only [RuneError] at h; omega
    · rw [h0] at h; omega

theorem htmlSafe_plain (b : Byte) (h : htmlSafe b = true) : b.val ≠ 0x22 ∧ b.val ≠ 0x5C := by
  simp [htmlSafe] at h
  omega

theorem readString_appendStringAux (fuel : Nat) : ∀ (s X : List Byte), s.length ≤ fuel →
    validStringAux fuel s = true →
    readString (appendStringAux fuel s ++ 0x22 :: X) = some (s, X) := by
  induction fuel with
  | zero =>
    intro s X hl _
    have hs : s = [] := List.length_eq_zero.mp (Nat.le_zero.mp hl)
    subst hs
    rw [readString.eq_def]
    simp +decide [appendStringAux]
  | succ fuel ih =>
    intro s X hl hv
    cases s with
    | nil =>
      rw [readString.eq_def]
      simp +decide [appendStringAux]
    | cons b rest =>
      have hl' : rest.length ≤ fuel := by simpa using hl
      simp only [appendStringAux]
      simp only [validStringAux] at hv
      by_cases hb : b.val < 0x80
      · simp only [hb, if_true] at hv ⊢
        by_cases hsafe : htmlSafe b = true
        · obtain ⟨p1, p2⟩ := htmlSafe_plain b hsafe
          simp only [hsafe, if_true, List.cons_append, List.nil_append]
          rw [readString_cons_of_plain b _ p1 p2, ih rest X hl' hv]
          rfl
        · have hs' : htmlSafe b = false := by simpa using hsafe
          simp only [hs', Bool.false_eq_true, if_false, List.append_assoc]
          rw [readString_escapeByte b _ hb hs', ih rest X hl' hv]
          rfl
      · have hb' : 0x80 ≤ b.val := by omega
        simp only [hb, if_false] at hv ⊢
        by_cases hinv : (decodeRune ((b :: rest).take 4)).1 = RuneError ∧
            (decodeRune ((b :: rest).take 4)).2 = 1
        · rw [if_pos hinv] at hv
          exact Bool.noConfusion hv
        · rw [if_neg hinv] at hv ⊢
          obtain ⟨q1, q2, q3⟩ := decodeRune_valid b rest hb' hinv
          have hd : ((b :: rest).drop (decodeRune ((b :: rest).take 4)).2).length ≤ fuel := by
            simp only [List.length_drop, List.length_cons] at hl ⊢
            omega
          have hrec := ih _ X hd hv
          by_cases hu : (decodeRune ((b :: rest).take 4)).1 = 0x2028 ∨
              (decodeRune ((b :: rest).take 4)).1 = 0x2029
          · obtain ⟨e1, e2⟩ := decodeRune_202x b rest _ hu rfl
            simp only [hu, if_true, List.append_assoc]
            rw [readString_escape_202x _ _ hu, hrec, e1, ← e2]
            simp only [Option.map_some', List.take_append_drop]
          · simp only [hu, if_false, List.append_assoc]
            rw [readString_append_of_high _ _ q3, hrec]
            simp only [Option.map_some', List.take_append_drop]

/-- What `appendString` writes for a valid string reads back as the string. -/
theorem readString_appendString (s X : List Byte) (hv : validString s = true) :
    readString ((appendString s).tail ++ X) = some (s, X) := by
  have h := readString_appendStringAux s.length s X (Nat.le_refl _) hv
  simpa [appendString] using h

/-! ### The text of a slice of valid strings determines the slice -/

theorem appendString_eq_cons (s : GoString) :
    appendString s = 0x22 :: (appendString s).tail := rfl

theorem joinWith_cons (sep p : List Byte) (ps : List (List Byte)) :
    joinWith sep (p :: ps) = p ++ (match ps with
      | [] => []
      | q :: qs => sep ++ joinWith sep (q :: qs)) := by
  cases ps <;> simp [joinWith]

theorem joinWith_appendString_inj : ∀ (l1 l2 : List GoString) (r1 r2 : List Byte),
    (∀ s ∈ l1, validString s = true) → (∀ s ∈ l2, validString s = true) →
    joinWith [0x2C] (l1.map appendString) ++ 0x5D :: r1 =
      joinWith [0x2C] (l2.map appendString) ++ 0x5D :: r2 →
    l1 = l2 := by
  intro l1
  induction l1 with
  | nil =>
    intro l2 r1 r2 _ _ h
    cases l2 with
    | nil => rfl
    | cons s2 t2 =>
      exfalso
      rw [List.map_cons, joinWith_cons, appendString_eq_cons] at h
      simp only [List.map_nil, joinWith, List.nil_append, List.cons_append, List.cons.injEq] at h
      exact absurd h.1 (by decide)
  | cons s1 t1 ih =>
    intro l2 r1 r2 h1 h2 h
    cases l2 with
    | nil =>
      exfalso
      rw [List.map_cons, joinWith_cons, appendString_eq_cons] at h
      simp only [List.map_nil, joinWith, List.nil_append, List.cons_append, List.cons.injEq] at h
      exact absurd h.1 (by decide)
    | cons s2 t2 =>
      have v1 := h1 s1 (List.mem_cons_self _ _)
      have v2 := h2 s2 (List.mem_cons_self _ _)
      rw [List.map_cons, List.map_cons, joinWith_cons, joinWith_cons,
        appendString_eq_cons s1, appendString_eq_cons s2] at h
      simp only [List.cons_append, List.append_assoc, List.cons.injEq, true_and] at h
      have key : ∀ Y1 Y2 : List Byte,
          (appendString s1).tail ++ Y1 = (appendString s2).tail ++ Y2 → s2 = s1 ∧ Y2 = Y1 := by
        intro Y1 Y2 hY
        have e1 := readString_appendString s1 Y1 v1
        rw [hY, readString_appendString s2 Y2 v2] at e1
        simpa only [Option.some.injEq, Prod.mk.injEq] using e1
      obtain ⟨es, et⟩ := key _ _ h
      subst es
      congr 1
      cases t1 with
      | nil =>
        cases t2 with
        | nil => rfl
        | cons x2 u2 =>
          exfalso
          simp only [List.map_nil, List.nil_append, List.map_cons, List.cons_append,
            List.cons.injEq] at et
          exact absurd et.1 (by decide)
      | cons x1 u1 =>
        cases t2 with
        | nil =>
          exfalso
          simp only [List.map_nil, List.nil_append, List.map_cons, List.cons_append,
            List.cons.injEq] at et
          exact absurd et.1 (by decide)
        | cons x2 u2 =>
          simp only [List.map_cons, List.cons_append, List.nil_append, List.cons.injEq,
            true_and, List.append_assoc] at et
          exact (ih (x2 :: u2) r1 r2 (fun s hs => h1 s (List.mem_cons_of_mem _ hs))
            (fun s hs => h2 s (List.mem_cons_of_mem _ hs))
            (by simpa only [List.map_cons, List.append_assoc] using et.symm)).symm ▸ rfl

theorem goString_null : goString "null" = [0x6E, 0x75, 0x6C, 0x6C] := by decide

theorem marshalSlice_inj (a b : StringSlice) (ha : ∀ s ∈ a.getD [], validString s = true)
    (hb : ∀ s ∈ b.getD [], validString s = true) (h : marshalSlice a = marshalSlice b) :
    a = b := by
  cases a with
  | none =>
    cases b with
    | none => rfl
    | some l2 =>
      exfalso
      simp only [marshalSlice, goString_null, List.cons_append, List.nil_append,
        List.cons.injEq] at h
      exact absurd h.1 (by decide)
  | some l1 =>
    cases b with
    | none =>
      exfalso
      simp only [marshalSlice, goString_null, List.cons_append, List.nil_append,
        List.cons.injEq] at h
      exact absurd h.1 (by decide)
    | some l2 =>
      simp only [marshalSlice, List.cons_append, List.nil_append, List.cons.injEq, true_and,
        List.append_assoc] at h
      rw [joinWith_appendString_inj l1 l2 [] [] ha hb h]

/-! ### The fuel of `appendString` is enough -/

theorem appendStringAux_fuel (n : Nat) : ∀ (m : Nat) (s : List Byte), s.length ≤ n →
    s.length ≤ m → appendStringAux n s = appendStringAux m s := by
  induction n with
  | zero =>
    intro m s hn _
    have hs : s = [] := List.length_eq_zero.mp (Nat.le_zero.mp hn)
    subst hs
    cases m <;> rfl
  | succ n ih =>
    intro m s hn hm
    cases s with
    | nil => cases m <;> rfl
    | cons b rest =>
      cases m with
      | zero => simp at hm
      | succ m =>
        have hn' : rest.length ≤ n := by simpa using hn
        have hm' : rest.length ≤ m := by simpa using hm
        simp only [appendStringAux]
        rw [ih m rest hn' hm']
        by_cases hb : b.val < 0x80
        · simp only [hb, if_true]
        · simp only [hb, if_false]
          by_cases hinv : (decodeRune ((b :: rest).take 4)).1 = RuneError ∧
              (decodeRune ((b :: rest).take 4)).2 = 1
          · rw [if_pos hinv, if_pos hinv]
          · obtain ⟨q1, _, _⟩ := decodeRune_valid b rest (by omega) hinv
            have e := ih m ((b :: rest).drop (decodeRune ((b :: rest).take 4)).2)
              (by simp only [List.length_drop, List.length_cons] at hn ⊢; omega)
              (by simp only [List.length_drop, List.length_cons] at hm ⊢; omega)
            rw [if_neg hinv, if_neg hinv, e]

/-- More fuel than the length of the string changes nothing: the loop of
`appendString` always runs to the end of the string. -/
theorem appendStringAux_length_fuel (s : List Byte) (k : Nat) :
    appendStringAux (s.length + k) s = appendStringAux s.length s :=
  appendStringAux_fuel _ _ s (Nat.le_add_right _ _) (Nat.le_refl _)

theorem validStringAux_fuel (n : Nat) : ∀ (m : Nat) (s : List Byte), s.length ≤ n →
    s.length ≤ m → validStringAux n s = validStringAux m s := by
  induction n with
  | zero =>
    intro m s hn _
    have hs : s = [] := List.length_eq_zero.mp (Nat.le_zero.mp hn)
    subst hs
    cases m <;> rfl
  | succ n ih =>
    intro m s hn hm
    cases s with
    | nil => cases m <;> rfl
    | cons b rest =>
      cases m with
      | zero => simp at hm
      | succ m =>
        have hn' : rest.length ≤ n := by simpa using hn
        have hm' : rest.length ≤ m := by simpa using hm
        simp only [validStringAux]
        rw [ih m rest hn' hm']
        by_cases hb : b.val < 0x80
        · simp only [hb, if_true]
        · simp only [hb, if_false]
          by_cases hinv : (decodeRune ((b :: rest).take 4)).1 = RuneError ∧
              (decodeRune ((b :: rest).take 4)).2 = 1
          · rw [if_pos hinv, if_pos hinv]
          · obtain ⟨q1, _, _⟩ := decodeRune_valid b rest (by omega) hinv
            have e := ih m ((b :: rest).drop (decodeRune ((b :: rest).take 4)).2)
              (by simp only [List.length_drop, List.length_cons] at hn ⊢; omega)
              (by simp only [List.length_drop, List.length_cons] at hm ⊢; omega)
            rw [if_neg hinv, if_neg hinv, e]

/-! ### The strings `randomString` returns -/

set_option maxRecDepth 100000 in
theorem encodeRune_runes : ∀ i : Fin runes.length,
    ∃ b : Byte, encodeRune (runes.get i) = [b] ∧ isLowerOrDigit b = true := by
  decide

theorem randomString_length (n : Nat) (intn : Nat → Fin runes.length) :
    (randomString n intn).length = n := by
  unfold randomString
  induction n with
  | zero => rfl
  | succ n ih =>
    obtain ⟨b, hb, _⟩ := encodeRune_runes (intn n)
    rw [List.range_succ, List.flatMap_append, List.length_append, ih]
    simp only [List.flatMap_cons, List.flatMap_nil, List.append_nil, hb, List.length_singleton]

theorem randomString_bytes (n : Nat) (intn : Nat → Fin runes.length) :
    ∀ b ∈ randomString n intn, isLowerOrDigit b = true := by
  intro b hb
  unfold randomString at hb
  rw [List.mem_flatMap] at hb
  obtain ⟨i, _, hi⟩ := hb
  obtain ⟨b', hb', hl⟩ := encodeRune_runes (intn i)
  rw [hb'] at hi
  rw [List.mem_singleton.mp hi]
  exact hl
/-! ### The stored set follows the stored map -/

theorem setFollowsMap_newState : SetFollowsMap newState := Or.inl ⟨rfl, rfl⟩

theorem setFollowsMapAt_set (T id : GoString) (c : certificationBackend) (s' : clientState)
    (hinv : SetFollowsMapAt T c) (hs : id = T → SetFollowsMap s') :
    SetFollowsMapAt T (c.set id s') := by
  intro st hst
  by_cases hid : T = id
  · subst hid
    rw [set_same] at hst
    simp only [Option.some.injEq] at hst
    subst hst
    exact hs rfl
  · rw [set_other c id T s' hid] at hst
    exact hinv st hst

theorem setFollowsMapAt_delete (T id : GoString) (c : certificationBackend)
    (hinv : SetFollowsMapAt T c) : SetFollowsMapAt T (c.delete id) := by
  intro st hst
  by_cases hid : T = id
  · simp [certificationBackend.delete, hid] at hst
  · simp only [certificationBackend.delete, hid, if_false] at hst
    exact hinv st hst

theorem rangeInsert_of_setFollowsMap (st : clientState) (h : SetFollowsMap st) :
    ∃ l : List GoString,
      rangeInsert st.dtoSet ((st.dtoMap.getD []).map Prod.fst) = some (some l) ∧
      (∀ k, k ∈ l ↔ k ∈ (st.dtoMap.getD []).map Prod.fst) ∧
      SetFollowsMap { st with dtoSet := some l } := by
  rcases h with ⟨hm, hs⟩ | ⟨⟨a, b, hm⟩, hs | hs⟩
  · refine ⟨[], by rw [hm, hs]; rfl, by rw [hm]; simp, Or.inl ⟨hm, rfl⟩⟩
  · refine ⟨[goString "key1", goString "key2"], ?_, ?_, Or.inr ⟨⟨a, b, hm⟩, Or.inr rfl⟩⟩
    · rw [hm, hs]; exact rangeInsert_key12
    · rw [hm]; simp
  · refine ⟨[goString "key1", goString "key2"], ?_, ?_, Or.inr ⟨⟨a, b, hm⟩, Or.inr rfl⟩⟩
    · rw [hm, hs]
      show rangeInsert (some [goString "key1", goString "key2"])
        [goString "key1", goString "key2"] = some (some [goString "key1", goString "key2"])
      decide
    · rw [hm]; simp

theorem setFollowsMap_test07 (st : clientState) (a b : GoString) (h : SetFollowsMap st) :
    SetFollowsMap { st with dtoMap := some [(goString "key1", a), (goString "key2", b)] } := by
  refine Or.inr ⟨⟨a, b, rfl⟩, ?_⟩
  rcases h with ⟨_, hs⟩ | ⟨_, hs⟩
  · exact Or.inl hs
  · exact hs

theorem setFollowsMapAt_step (E : Encoding) (T : GoString) (c c' : certificationBackend)
    (hstep : Step E c c') (hinv : SetFollowsMapAt T c) : SetFollowsMapAt T c' := by
  cases hstep with
  | start intn =>
    exact setFollowsMapAt_set T _ c _ hinv (fun _ => setFollowsMap_newState)
  | test01 inp r =>
    unfold Test01; split
    · exact hinv
    · rename_i state heq
      exact setFollowsMapAt_set T _ c _ hinv (fun hid => hinv state (hid ▸ heq))
  | test02 inp r =>
    unfold Test02; repeat' split
    · exact hinv
    · exact hinv
    · rename_i state heq _ _
      exact setFollowsMapAt_set T _ c _ hinv (fun hid => hinv state (hid ▸ heq))
  | test03 inp r =>
    unfold Test03; repeat' split
    · exact hinv
    · exact hinv
    · rename_i state heq _ _
      exact setFollowsMapAt_set T _ c _ hinv (fun hid => hinv state (hid ▸ heq))
  | test04 inp intn =>
    unfold Test04; repeat' split
    · exact hinv
    · exact hinv
    · rename_i state heq _ _
      exact setFollowsMapAt_set T _ c _ hinv (fun hid => hinv state (hid ▸ heq))
  | test05 inp =>
    unfold Test05; repeat' split
    all_goals exact hinv
  | test06 inp =>
    unfold Test06; repeat' split
    · exact hinv
    · exact hinv
    · exact hinv
    · exact hinv
    · exact hinv
    · rename_i state heq _ _ _ _ _ _ _ _
      exact setFollowsMapAt_set T _ c _ hinv (fun hid => hinv state (hid ▸ heq))
  | test07 inp intn =>
    unfold Test07; repeat' split
    · exact hinv
    · exact hinv
    · rename_i state heq _ _
      exact setFollowsMapAt_set T _ c _ hinv
        (fun hid => setFollowsMap_test07 state _ _ (hinv state (hid ▸ heq)))
  | test08 inp =>
    unfold Test08; repeat' split
    · exact hinv
    · exact hinv
    · exact hinv
    · rename_i state heq _ _ _ dtoSet hr
      refine setFollowsMapAt_set T _ c _ hinv (fun hid => ?_)
      obtain ⟨l, h1, _, h3⟩ := rangeInsert_of_setFollowsMap state (hinv state (hid ▸ heq))
      rw [h1] at hr
      simp only [Option.some.injEq] at hr
      subst hr
      exact h3
  | test09 inp =>
    unfold Test09; repeat' split
    · exact hinv
    · exact hinv
    · rename_i state heq _ _
      exact setFollowsMapAt_set T _ c _ hinv (fun hid => hinv state (hid ▸ heq))
  | test10 inp =>
    unfold Test10; repeat' split
    all_goals exact hinv
  | test11 inp =>
    unfold Test11; repeat' split
    all_goals exact hinv
  | finish inp =>
    unfold End; split
    · exact hinv
    · exact setFollowsMapAt_delete T _ c hinv

theorem setFollowsMapAt_reachable (E : Encoding) (T : GoString) (c c' : certificationBackend)
    (hr : Reachable E c c') (hinv : SetFollowsMapAt T c) : SetFollowsMapAt T c' := by
  induction hr with
  | refl => exact hinv
  | tail _ hstep ih => exact setFollowsMapAt_step E T _ _ hstep ih
/-! ### The decimal text of an integer determines the integer -/

/-- The byte written for a decimal digit character. -/
theorem digitByte_spec : ∀ d : Fin 10,
    (Fin.ofNat (Nat.digitChar d.val).toNat : Byte).val = 0x30 + d.val := by
  decide

theorem digitByte_mod (n : Nat) :
    (Fin.ofNat (Nat.digitChar (n % 10)).toNat : Byte).val = 0x30 + n % 10 :=
  digitByte_spec ⟨n % 10, Nat.mod_lt _ (by decide)⟩

theorem foldl_toDigitsCore (fuel : Nat) : ∀ (n : Nat) (ds : List Char), n < fuel →
    ((Nat.toDigitsCore 10 fuel n ds).map (fun ch => (Fin.ofNat ch.toNat : Byte))).foldl
        (fun acc b => acc * 10 + (b.val - 0x30)) 0 =
      (ds.map (fun ch => (Fin.ofNat ch.toNat : Byte))).foldl
        (fun acc b => acc * 10 + (b.val - 0x30)) n := by
  induction fuel with
  | zero => intro n ds h; omega
  | succ fuel ih =>
    intro n ds h
    simp only [Nat.toDigitsCore]
    split
    · rename_i h0
      simp only [List.map_cons, List.foldl_cons, digitByte_mod]
      congr 1
      omega
    · rename_i h0
      rw [ih (n / 10) _ (by omega)]
      simp only [List.map_cons, List.foldl_cons, digitByte_mod]
      congr 1
      omega

theorem toDigits_head (n : Nat) :
    ∃ b t, (Nat.toDigits 10 n).map (fun ch => (Fin.ofNat ch.toNat : Byte)) = b :: t ∧
      0x30 ≤ b.val := by
  have key : ∀ fuel n (ds : List Char),
      (∀ c ∈ ds, 0x30 ≤ (Fin.ofNat c.toNat : Byte).val) →
      ∃ b t, (Nat.toDigitsCore 10 (fuel + 1) n ds).map
        (fun ch => (Fin.ofNat ch.toNat : Byte)) = b :: t ∧ 0x30 ≤ b.val := by
    intro fuel
    induction fuel with
    | zero =>
      intro n ds _
      simp only [Nat.toDigitsCore]
      split
      · exact ⟨_, _, rfl, by rw [digitByte_mod]; omega⟩
      · exact ⟨_, _, rfl, by rw [digitByte_mod]; omega⟩
    | succ fuel ih =>
      intro n ds hds
      rw [Nat.toDigitsCore]
      split
      · exact ⟨_, _, rfl, by rw [digitByte_mod]; omega⟩
      · exact ih _ _ (by
          intro c hc
          rcases List.mem_cons.mp hc with rfl | hc
          · rw [digitByte_mod]; omega
          · exact hds c hc)
  exact key n n [] (by simp)

theorem appendInt_inj (a b : GoInt) (h : appendInt a = appendInt b) : a = b := by
  have nat_inj : ∀ x y : Nat,
      (Nat.toDigits 10 x).map (fun ch => (Fin.ofNat ch.toNat : Byte)) =
        (Nat.toDigits 10 y).map (fun ch => (Fin.ofNat ch.toNat : Byte)) → x = y := by
    intro x y hxy
    have hx := foldl_toDigitsCore (x + 1) x [] (Nat.lt_succ_self x)
    have hy := foldl_toDigitsCore (y + 1) y [] (Nat.lt_succ_self y)
    simp only [List.map_nil, List.foldl_nil] at hx hy
    unfold Nat.toDigits at hxy
    rw [hxy, hy] at hx
    exact hx.symm
  cases a with
  | ofNat x =>
    cases b with
    | ofNat y =>
      simp only [appendInt] at h
      rw [nat_inj x y h]
    | negSucc y =>
      exfalso
      simp only [appendInt] at h
      obtain ⟨b0, t, e, hb⟩ := toDigits_head x
      rw [e] at h
      simp only [List.cons.injEq] at h
      rw [h.1] at hb
      exact absurd hb (by decide)
  | negSucc x =>
    cases b with
    | ofNat y =>
      exfalso
      simp only [appendInt] at h
      obtain ⟨b0, t, e, hb⟩ := toDigits_head y
      rw [e] at h
      simp only [List.cons.injEq] at h
      rw [← h.1] at hb
      exact absurd hb (by decide)
    | negSucc y =>
      simp only [appendInt, List.cons.injEq, true_and] at h
      have := nat_inj _ _ h
      congr 1
      omega
/-! ### The JSON text of valid strings and maps determines them -/

theorem appendString_prefix_inj (a b : GoString) (X Y : List Byte)
    (ha : validString a = true) (hb : validString b = true)
    (h : appendString a ++ X = appendString b ++ Y) : a = b ∧ X = Y := by
  rw [appendString_eq_cons a, appendString_eq_cons b] at h
  simp only [List.cons_append, List.cons.injEq, true_and] at h
  have e := readString_appendString a X ha
  rw [h, readString_appendString b Y hb] at e
  simp only [Option.some.injEq, Prod.mk.injEq] at e
  exact ⟨e.1.symm, e.2.symm⟩

theorem appendString_inj (a b : GoString) (ha : validString a = true)
    (hb : validString b = true) (h : appendString a = appendString b) : a = b :=
  (appendString_prefix_inj a b [] [] ha hb (by simpa using h)).1

theorem joinWith_map_inj {α : Type} (enc : α → List Byte) (c : Byte)
    (hc : c.val ≠ 0x22) (hc2 : c.val ≠ 0x2C) :
    ∀ (l1 l2 : List α) (r1 r2 : List Byte),
    (∀ x ∈ l1, ∀ y ∈ l2, ∀ X Y, enc x ++ X = enc y ++ Y → x = y ∧ X = Y) →
    (∀ x ∈ l1, ∃ t, enc x = 0x22 :: t) → (∀ x ∈ l2, ∃ t, enc x = 0x22 :: t) →
    joinWith [0x2C] (l1.map enc) ++ c :: r1 = joinWith [0x2C] (l2.map enc) ++ c :: r2 →
    l1 = l2 := by
  have hne : ∀ (x : Byte) (t u : List Byte), x.val = 0x22 → c :: t ≠ x :: u := by
    intro x t u hx h
    simp only [List.cons.injEq] at h
    exact hc (by rw [h.1]; exact hx)
  have hne2 : ∀ (t u : List Byte), c :: t ≠ 0x2C :: u := by
    intro t u h
    simp only [List.cons.injEq] at h
    exact hc2 (by rw [h.1]; rfl)
  intro l1
  induction l1 with
  | nil =>
    intro l2 r1 r2 _ _ h2 h
    cases l2 with
    | nil => rfl
    | cons y t2 =>
      exfalso
      obtain ⟨t, ht⟩ := h2 y (List.mem_cons_self _ _)
      rw [List.map_cons, joinWith_cons, ht] at h
      simp only [List.map_nil, joinWith, List.nil_append, List.cons_append] at h
      exact hne _ _ _ rfl h
  | cons x t1 ih =>
    intro l2 r1 r2 hinj h1 h2 h
    cases l2 with
    | nil =>
      exfalso
      obtain ⟨t, ht⟩ := h1 x (List.mem_cons_self _ _)
      rw [List.map_cons, joinWith_cons, ht] at h
      simp only [List.map_nil, joinWith, List.nil_append, List.cons_append] at h
      exact hne _ _ _ rfl h.symm
    | cons y t2 =>
      rw [List.map_cons, List.map_cons, joinWith_cons, joinWith_cons] at h
      simp only [List.append_assoc] at h
      obtain ⟨exy, et⟩ := hinj x (List.mem_cons_self _ _) y (List.mem_cons_self _ _) _ _ h
      subst exy
      congr 1
      cases t1 with
      | nil =>
        cases t2 with
        | nil => rfl
        | cons y2 u2 =>
          exfalso
          simp only [List.map_nil, List.nil_append, List.map_cons, List.cons_append] at et
          exact hne2 _ _ et
      | cons x1 u1 =>
        cases t2 with
        | nil =>
          exfalso
          simp only [List.map_nil, List.nil_append, List.map_cons, List.cons_append] at et
          exact hne2 _ _ et.symm
        | cons y2 u2 =>
          simp only [List.map_cons, List.cons_append, List.nil_append, List.cons.injEq,
            true_and, List.append_assoc] at et
          exact ih (y2 :: u2) r1 r2
            (fun a ha b hb => hinj a (List.mem_cons_of_mem _ ha) b (List.mem_cons_of_mem _ hb))
            (fun a ha => h1 a (List.mem_cons_of_mem _ ha))
            (fun a ha => h2 a (List.mem_cons_of_mem _ ha))
            (by simpa only [List.map_cons, List.append_assoc] using et)
theorem entryText_inj (p q : GoString × GoString) (X Y : List Byte)
    (hp : validString p.1 = true ∧ validString p.2 = true)
    (hq : validString q.1 = true ∧ validString q.2 = true)
    (h : (appendString p.1 ++ [0x3A] ++ appendString p.2) ++ X =
      (appendString q.1 ++ [0x3A] ++ appendString q.2) ++ Y) : p = q ∧ X = Y := by
  simp only [List.append_assoc] at h
  obtain ⟨e1, h'⟩ := appendString_prefix_inj p.1 q.1 _ _ hp.1 hq.1 h
  simp only [List.cons_append, List.nil_append, List.cons.injEq, true_and] at h'
  obtain ⟨e2, h''⟩ := appendString_prefix_inj p.2 q.2 _ _ hp.2 hq.2 h'
  exact ⟨Prod.ext e1 e2, h''⟩

theorem deepEqualMap_of_marshalMap (a b : GoMap) (ha : ValidMap a) (hb : ValidMap b)
    (h : marshalMap a = marshalMap b) : deepEqualMap a b = true := by
  cases a with
  | none =>
    cases b with
    | none => rfl
    | some l2 =>
      exfalso
      simp only [marshalMap, goString_null, List.cons_append, List.nil_append,
        List.cons.injEq] at h
      exact absurd h.1 (by decide)
  | some l1 =>
    cases b with
    | none =>
      exfalso
      simp only [marshalMap, goString_null, List.cons_append, List.nil_append,
        List.cons.injEq] at h
      exact absurd h.1 (by decide)
    | some l2 =>
      simp only [marshalMap, List.cons_append, List.nil_append, List.cons.injEq, true_and]
        at h
      have hs : sortEntries l1 = sortEntries l2 := by
        refine joinWith_map_inj
          (fun kv : GoString × GoString => appendString kv.1 ++ [0x3A] ++ appendString kv.2)
          0x7D (by decide) (by decide) _ _ [] [] ?_ ?_ ?_ h
        · intro x hx y hy X Y hxy
          exact entryText_inj x y X Y
            (ha.2 x ((List.mem_insertionSort _).1 hx))
            (hb.2 y ((List.mem_insertionSort _).1 hy)) hxy
        · intro x _
          exact ⟨(appendString x.1).tail ++ [0x3A] ++ appendString x.2, by
            beta_reduce; rw [appendString_eq_cons x.1]; rfl⟩
        · intro x _
          exact ⟨(appendString x.1).tail ++ [0x3A] ++ appendString x.2, by
            beta_reduce; rw [appendString_eq_cons x.1]; rfl⟩
      refine deepEqualMap_of_same_entries l1 l2 ha.1 hb.1 (fun kv => ?_)
      have p1 : kv ∈ sortEntries l1 ↔ kv ∈ l1 := List.mem_insertionSort _
      have p2 : kv ∈ sortEntries l2 ↔ kv ∈ l2 := List.mem_insertionSort _
      rw [← p1, ← p2, hs]

theorem isEqual_eq_none_iff (E : Encoding) (x y : GoValue) :
    isEqual E x y = none ↔
      DeepEqual x y = true ∨ ∃ j, Marshal E x = .ok j ∧ Marshal E y = .ok j := by
  unfold isEqual
  by_cases hd : DeepEqual x y = true
  · simp [hd]
  · simp only [hd, Bool.false_eq_true, if_false, false_or]
    cases hx : Marshal E x with
    | error e => simp
    | ok g =>
      cases hy : Marshal E y with
      | error e => simp
      | ok w =>
        by_cases hgw : g = w
        · simp [hgw]
        · simp only [hgw, if_false, Except.ok.injEq, exists_eq_left']
          simp
          exact fun h => hgw h.symm

/-! ## The claims -/

/-- C1. Full happy path: from any registry and with any random draws, `Start`,
then `Test01` .. `Test11` each called with the token `Start` returned and with
the value the previous call returned, then `End`, all return a reply and no
error, and `End` replies `AllOk = true`. -/
theorem happy_path (E : Encoding) (c0 : certificationBackend)
    (d0 : Nat → Fin runes.length) (r1 r2 : Nat) (r3 : RandFloat64)
    (d4 d7 : Nat → Fin runes.length) {α : Type} (flag : α) :
    ∃ (c1 c2 c3 c4 c5 c6 c7 c8 c9 c10 c11 c12 c13 : certificationBackend)
      (tok : GoString) (b : GoBool) (n : GoInt) (f : Float64) (s : GoString)
      (o5 : Test05Out) (o6 : DtoStruct) (m : GoMap) (st : GoSet) (mt : MyType)
      (reply : GoString),
      Start c0 d0 = (c1, .ok ⟨tok⟩) ∧
      Test01 c1 ⟨tok⟩ r1 = (c2, .ok ⟨b⟩) ∧
      Test02 E c2 ⟨tok, b⟩ r2 = (c3, .ok ⟨n⟩) ∧
      Test03 E c3 ⟨tok, n⟩ r3 = (c4, .ok ⟨f⟩) ∧
      Test04 E c4 ⟨tok, f⟩ d4 = (c5, .ok ⟨s⟩) ∧
      Test05 E c5 ⟨tok, s⟩ = (c6, .ok o5) ∧
      Test06 E c6 ⟨tok, o5.Bool, o5.Int, o5.Float, o5.String⟩ = (c7, .ok ⟨o6⟩) ∧
      Test07 E c7 ⟨tok, o6⟩ d7 = (c8, .ok ⟨m⟩) ∧
      Test08 E c8 ⟨tok, m⟩ = (c9, .ok ⟨st⟩) ∧
      Test09 E c9 ⟨tok, st⟩ = (c10, .ok ⟨mt⟩) ∧
      Test10 E c10 ⟨tok, mt⟩ = (c11, .ok ⟨reply⟩) ∧
      Test11 c11 ⟨tok, flag⟩ = (c12, .ok {}) ∧
      End c12 ⟨tok⟩ = (c13, .ok ⟨true⟩) := by
  have hf : r3.val.isNaN = false := Float64.not_isNaN_of_inUnit _ r3.inUnit
  let tok := randomString 32 d0
  let s1 : clientState := { newState with bool := r1 % 2 == 0 }
  let s2 : clientState := { s1 with integer := Int.ofNat r2 }
  let s3 : clientState := { s2 with float := r3.val }
  let s4 : clientState := { s3 with string := randomString 8 d4 }
  let s6 : clientState := { s4 with dtoStruct := ⟨s4.bool, s4.float, s4.integer, s4.string⟩ }
  let s7 : clientState := { s6 with dtoMap := some [(goString "key1", randomString 8 d7),
    (goString "key2", randomString 8 (fun i => d7 (8 + i)))] }
  let s8 : clientState := { s7 with dtoSet := some [goString "key1", goString "key2"] }
  let s9 : clientState := { s8 with dtoMyType := builtMyType s8 }
  let c1 := c0.set tok newState
  let c2 := c1.set tok s1
  let c3 := c2.set tok s2
  let c4 := c3.set tok s3
  let c5 := c4.set tok s4
  let c7 := c5.set tok s6
  let c8 := c7.set tok s7
  let c9 := c8.set tok s8
  let c10 := c9.set tok s9
  have h0 : Start c0 d0 = (c1, .ok ⟨tok⟩) := rfl
  have h1 := Test01_ok c1 tok newState r1 (set_same c0 tok newState)
  have h2 := Test02_ok E c2 tok s1 r2 (set_same c1 tok s1)
  have h3 := Test03_ok E c3 tok s2 r3 (set_same c2 tok s2)
  have h4 := Test04_ok E c4 tok s3 d4 (set_same c3 tok s3) hf
  have h5 := Test05_ok E c5 tok s4 (set_same c4 tok s4)
  have h6 := Test06_ok E c5 tok s4 (set_same c4 tok s4) hf
  have h7 := Test07_ok E c7 tok s6 d7 (set_same c5 tok s6) hf
  have h8 := Test08_ok E c8 tok s7 _ (some [goString "key1", goString "key2"])
    (set_same c7 tok s7) rfl key12_nodup rangeInsert_key12
  have h9 := Test09_ok E c9 tok s8 _ (set_same c8 tok s8) rfl key12_nodup
  have h10 := Test10_ok E c10 tok s9 (set_same c9 tok s9) (deepEqualMyType_built s8)
  have h11 := Test11_ok c10 tok s9 flag (set_same c9 tok s9)
  have h12 := End_ok c10 tok s9 (set_same c9 tok s9)
  exact ⟨c1, c2, c3, c4, c5, c5, c7, c8, c9, c10, c10, c10, c10.delete tok, tok, _, _, _, _,
    _, _, _, _, _, _, h0, h1, h2, h3, h4, h5, h6, h7, h8, h9, h10, h11, h12⟩

/-- C2. Unknown session: when the token is not a key of the registry, each of
`Test01` .. `Test11` and `End`, whatever its other arguments, returns
`ClientIdErrorError` and leaves the registry as it was. -/
theorem unknown_session (E : Encoding) (c : certificationBackend) (id : GoString)
    (h : c.clientStates id = none) (r1 r2 : Nat) (r3 : RandFloat64)
    (d4 d7 : Nat → Fin runes.length) (b b6 : GoBool) (n n6 : GoInt) (f f6 : Float64)
    (s s6 : GoString) (o : DtoStruct) (m : GoMap) (st : GoSet) (mt : MyType)
    {α : Type} (flag : α) :
    Test01 c ⟨id⟩ r1 = (c, .err .ClientIdErrorError) ∧
    Test02 E c ⟨id, b⟩ r2 = (c, .err .ClientIdErrorError) ∧
    Test03 E c ⟨id, n⟩ r3 = (c, .err .ClientIdErrorError) ∧
    Test04 E c ⟨id, f⟩ d4 = (c, .err .ClientIdErrorError) ∧
    Test05 E c ⟨id, s⟩ = (c, .err .ClientIdErrorError) ∧
    Test06 E c ⟨id, b6, n6, f6, s6⟩ = (c, .err .ClientIdErrorError) ∧
    Test07 E c ⟨id, o⟩ d7 = (c, .err .ClientIdErrorError) ∧
    Test08 E c ⟨id, m⟩ = (c, .err .ClientIdErrorError) ∧
    Test09 E c ⟨id, st⟩ = (c, .err .ClientIdErrorError) ∧
    Test10 E c ⟨id, mt⟩ = (c, .err .ClientIdErrorError) ∧
    Test11 c ⟨id, flag⟩ = (c, .err .ClientIdErrorError) ∧
    End c ⟨id⟩ = (c, .err .ClientIdErrorError) := by
  simp [Test01, Test02, Test03, Test04, Test05, Test06, Test07, Test08, Test09, Test10,
    Test11, End, h]

/-- Witness of C2: in the backend with no client, `Test02` and `End` called
with the token `T` return `ClientIdErrorError` and change nothing. -/
theorem unknown_session_witness :
    emptyBackend.clientStates (goString "T") = none ∧
    Test02 sampleEncoding emptyBackend ⟨goString "T", true⟩ 7 =
      (emptyBackend, .err .ClientIdErrorError) ∧
    End emptyBackend ⟨goString "T"⟩ = (emptyBackend, .err .ClientIdErrorError) :=
  have h := unknown_session sampleEncoding emptyBackend (goString "T") rfl 0 7
    ⟨Float64.zero, by decide⟩ zeroDraws zeroDraws true true 0 0 Float64.zero Float64.zero
    [] [] newState.dtoStruct none none MyType.zero ()
  ⟨rfl, h.2.1, h.2.2.2.2.2.2.2.2.2.2.2⟩

/-- C3. Atomicity on mismatch: whenever one of `Test02` .. `Test10` returns an
error, the backend after the call is the backend before it: the registry and
every stored value of every session are unchanged. `Test06` in particular
stores nothing when a later field of the record mismatches. -/
theorem error_leaves_state (E : Encoding) (c : certificationBackend) :
    (∀ inp r e, (Test02 E c inp r).2 = .err e → (Test02 E c inp r).1 = c) ∧
    (∀ inp r e, (Test03 E c inp r).2 = .err e → (Test03 E c inp r).1 = c) ∧
    (∀ inp d e, (Test04 E c inp d).2 = .err e → (Test04 E c inp d).1 = c) ∧
    (∀ inp e, (Test05 E c inp).2 = .err e → (Test05 E c inp).1 = c) ∧
    (∀ inp e, (Test06 E c inp).2 = .err e → (Test06 E c inp).1 = c) ∧
    (∀ inp d e, (Test07 E c inp d).2 = .err e → (Test07 E c inp d).1 = c) ∧
    (∀ inp e, (Test08 E c inp).2 = .err e → (Test08 E c inp).1 = c) ∧
    (∀ inp e, (Test09 E c inp).2 = .err e → (Test09 E c inp).1 = c) ∧
    (∀ inp e, (Test10 E c inp).2 = .err e → (Test10 E c inp).1 = c) := by
  refine ⟨?_, ?_, ?_, ?_, ?_, ?_, ?_, ?_, ?_⟩
  · intro inp r e; unfold Test02; repeat' split
    all_goals simp
  · intro inp r e; unfold Test03; repeat' split
    all_goals simp
  · intro inp r e; unfold Test04; repeat' split
    all_goals simp
  · intro inp e; unfold Test05; repeat' split
    all_goals simp
  · intro inp e; unfold Test06; repeat' split
    all_goals simp
  · intro inp r e; unfold Test07; repeat' split
    all_goals simp
  · intro inp e; unfold Test08; repeat' split
    all_goals simp
  · intro inp e; unfold Test09; repeat' split
    all_goals simp
  · intro inp e; unfold Test10; repeat' split
    all_goals simp

/-- Witness of C3: in a fresh session, `Test06` called with the stored bool,
integer and float but another string returns a `CertificationErrorError` and
the backend is unchanged. -/
theorem error_leaves_state_witness :
    (Test06 sampleEncoding (Start emptyBackend zeroDraws).1
      ⟨randomString 32 zeroDraws, false, 0, Float64.zero, goString "x"⟩).2 =
      .err (.CertificationErrorError (goString "\"x\"") (goString "\"\"")) ∧
    (Test06 sampleEncoding (Start emptyBackend zeroDraws).1
      ⟨randomString 32 zeroDraws, false, 0, Float64.zero, goString "x"⟩).1 =
      (Start emptyBackend zeroDraws).1 :=
  ⟨by decide, (error_leaves_state sampleEncoding _).2.2.2.2.1 _
    (.CertificationErrorError (goString "\"x\"") (goString "\"\"")) (by decide)⟩

/-- C4. Mismatch detection: in a session whose stored boolean is `st.bool`,
`Test02` called with another boolean `b'` fails with a
`CertificationErrorError` whose `Got` is the JSON text of `b'` and whose
`Wants` is the JSON text of the stored boolean; decoding them gives back `b'`
and the stored boolean. -/
theorem mismatch_detection (E : Encoding) (c : certificationBackend) (id : GoString)
    (st : clientState) (b' : GoBool) (r : Nat) (h : c.clientStates id = some st)
    (hb : b' ≠ st.bool) :
    Test02 E c ⟨id, b'⟩ r =
      (c, .err (.CertificationErrorError (marshalBool b') (marshalBool st.bool))) ∧
    Marshal E (.bool b') = .ok (marshalBool b') ∧
    Marshal E (.bool st.bool) = .ok (marshalBool st.bool) ∧
    unmarshalBool (marshalBool b') = some b' ∧
    unmarshalBool (marshalBool st.bool) = some st.bool := by
  have hd : ∀ x : GoBool, unmarshalBool (marshalBool x) = some x := by decide
  have hj : marshalBool b' ≠ marshalBool st.bool := by
    revert hb; generalize st.bool = y; revert b' y; decide
  have hde : DeepEqual (.bool b') (.bool st.bool) = false := by
    simpa [DeepEqual] using hb
  refine ⟨?_, rfl, rfl, hd _, hd _⟩
  simp [Test02, h, isEqual, hde, Marshal, hj]

/-- Witness of C4: a fresh session stores `false`; `Test02` called with `true`
fails with `Got` = `true` and `Wants` = `false`. -/
theorem mismatch_detection_witness :
    Test02 sampleEncoding (Start emptyBackend zeroDraws).1
        ⟨randomString 32 zeroDraws, true⟩ 5 =
      ((Start emptyBackend zeroDraws).1,
        .err (.CertificationErrorError (goString "true") (goString "false"))) :=
  (mismatch_detection sampleEncoding (Start emptyBackend zeroDraws).1
    (randomString 32 zeroDraws) newState true 5 (by decide) (by decide)).1

/-- C5. The code at the input where it departs from the claim and from the
docstring of `isEqual`: `Test04` called with a NaN float on the session `Start`
has just created, whose stored float is `0`, that is `isEqual(NaN, 0.0)`. The
two values differ, yet the error `isEqual` returns is the
`UnsupportedValueError` of `json.Marshal`, which is not a
`CertificationErrorError` and carries no `Got` and `Wants`; `Test04` returns
that error and leaves the registry as it was. The same error comes back from
`isEqual(0.0, NaN)` and from `isEqual(NaN, NaN)`. -/
theorem nan_error_is_not_certification :
    (Start emptyBackend zeroDraws).1.clientStates tokenA = some newState ∧
    newState.float = Float64.zero ∧
    DeepEqual (.float64 Float64.nan) (.float64 Float64.zero) = false ∧
    (∀ E, isEqual E (.float64 Float64.nan) (.float64 Float64.zero) =
      some (.UnsupportedValueError Float64.nan)) ∧
    (∀ E d, Test04 E (Start emptyBackend zeroDraws).1 ⟨tokenA, Float64.nan⟩ d =
      ((Start emptyBackend zeroDraws).1, .err (.UnsupportedValueError Float64.nan))) ∧
    ¬ IsCertificationError (.UnsupportedValueError Float64.nan) ∧
    (∀ E, isEqual E (.float64 Float64.zero) (.float64 Float64.nan) =
      some (.UnsupportedValueError Float64.nan)) ∧
    (∀ E, isEqual E (.float64 Float64.nan) (.float64 Float64.nan) =
      some (.UnsupportedValueError Float64.nan)) := by
  have hm : ∀ E, Marshal E (.float64 Float64.nan) =
      .error (.UnsupportedValueError Float64.nan) := by
    intro E
    have : (Float64.nan.isInf || Float64.nan.isNaN) = true := by decide
    simp only [Marshal, marshalFloat, this, if_true]
  have hz : ∀ E, ∃ g, Marshal E (.float64 Float64.zero) = .ok g := by
    intro E
    have : (Float64.zero.isInf || Float64.zero.isNaN) = false := by decide
    exact ⟨_, by simp only [Marshal, marshalFloat, this]; rfl⟩
  have hs : (Start emptyBackend zeroDraws).1.clientStates tokenA = some newState := by decide
  have h1 : DeepEqual (.float64 Float64.nan) (.float64 Float64.zero) = false := by decide
  have h2 : DeepEqual (.float64 Float64.zero) (.float64 Float64.nan) = false := by decide
  have h3 : DeepEqual (.float64 Float64.nan) (.float64 Float64.nan) = false := by decide
  have hq : ∀ E, isEqual E (.float64 Float64.nan) (.float64 Float64.zero) =
      some (.UnsupportedValueError Float64.nan) := by
    intro E
    simp only [isEqual, h1, hm E]
    rfl
  refine ⟨hs, rfl, h1, hq, fun E d => ?_, ?_, fun E => ?_, fun E => ?_⟩
  · have hq2 : isEqual E (.float64 Float64.nan) (.float64 newState.float) =
        some (.UnsupportedValueError Float64.nan) := hq E
    simp only [Test04, hs, hq2]
  · rintro ⟨g, w, h⟩
    exact GoError.noConfusion h
  · obtain ⟨g, hg⟩ := hz E
    simp only [isEqual, h2, hg, hm E]
    rfl
  · simp only [isEqual, h3, hm E]
    rfl

/-- Where the errors of validation are of the documented kind. Whenever
`isEqual` does not return nil and `json.Marshal` succeeds on both values, the error is a `CertificationErrorError` whose `Got`
and `Wants` are the JSON texts of `got` and `wants`. `json.Marshal` succeeds on
every bool, int, string, map and set, on a float that is neither NaN nor
infinite, on a record whose float is such, and on a `MyType` whose `Object`
compacts. So on an existing session every validation failure of `Test02`,
`Test03`, `Test05`, `Test08` and `Test09` is a `CertificationErrorError`, and
so is every validation failure of `Test04`, `Test06`, `Test07` and `Test10`
when the floats compared are finite and the two `Object`s compact. -/
theorem validation_error_kind (E : Encoding) :
    (∀ got wants e, isEqual E got wants = some e → HasJSON E got → HasJSON E wants →
      ∃ g w, Marshal E got = .ok g ∧ Marshal E wants = .ok w ∧
        e = .CertificationErrorError g w) ∧
    (∀ b, HasJSON E (.bool b)) ∧ (∀ n, HasJSON E (.int n)) ∧ (∀ s, HasJSON E (.string s)) ∧
    (∀ m, HasJSON E (.stringMap m)) ∧ (∀ s, HasJSON E (.stringSet s)) ∧
    (∀ f, f.isFinite = true → HasJSON E (.float64 f)) ∧
    (∀ r, r.Float.isFinite = true → HasJSON E (.dtoStruct r)) ∧
    (∀ t o, E.compact (t.Object.getD (goString "null")) = some o → HasJSON E (.myType t)) ∧
    (∀ c inp r st e, c.clientStates inp.ClientId = some st →
      (Test02 E c inp r).2 = .err e → IsCertificationError e) ∧
    (∀ c inp r st e, c.clientStates inp.ClientId = some st →
      (Test03 E c inp r).2 = .err e → IsCertificationError e) ∧
    (∀ c inp d st e, c.clientStates inp.ClientId = some st →
      inp.Float.isFinite = true → st.float.isFinite = true →
      (Test04 E c inp d).2 = .err e → IsCertificationError e) ∧
    (∀ c inp st e, c.clientStates inp.ClientId = some st →
      (Test05 E c inp).2 = .err e → IsCertificationError e) ∧
    (∀ c inp st e, c.clientStates inp.ClientId = some st →
      inp.Float.isFinite = true → st.float.isFinite = true →
      (Test06 E c inp).2 = .err e → IsCertificationError e) ∧
    (∀ c inp d st e, c.clientStates inp.ClientId = some st →
      inp.Struct.Float.isFinite = true → st.dtoStruct.Float.isFinite = true →
      (Test07 E c inp d).2 = .err e → IsCertificationError e) ∧
    (∀ c inp st e, c.clientStates inp.ClientId = some st →
      (Test08 E c inp).2 = .err e → IsCertificationError e) ∧
    (∀ c inp st e, c.clientStates inp.ClientId = some st →
      (Test09 E c inp).2 = .err e → IsCertificationError e) ∧
    (∀ c inp st e o1 o2, c.clientStates inp.ClientId = some st →
      E.compact (inp.Mytype.Object.getD (goString "null")) = some o1 →
      E.compact (st.dtoMyType.Object.getD (goString "null")) = some o2 →
      (Test10 E c inp).2 = .err e → IsCertificationError e) := by
  have hb : ∀ b, HasJSON E (.bool b) := fun b => ⟨_, rfl⟩
  have hn : ∀ n, HasJSON E (.int n) := fun n => ⟨_, rfl⟩
  have hs : ∀ s, HasJSON E (.string s) := fun s => ⟨_, rfl⟩
  have hm : ∀ m, HasJSON E (.stringMap m) := fun m => ⟨_, rfl⟩
  have ht : ∀ s, HasJSON E (.stringSet s) := fun s => ⟨_, rfl⟩
  refine ⟨isEqual_error_of_hasJSON E, hb, hn, hs, hm, ht, hasJSON_float E, hasJSON_struct E,
    hasJSON_myType E, ?_, ?_, ?_, ?_, ?_, ?_, ?_, ?_, ?_⟩
  · intro c inp r st e hc
    simp only [Test02, hc]
    split
    · rename_i err he
      intro h; simp only [Result.err.injEq] at h; subst h
      exact isCertificationError_of_isEqual E _ _ _ he (hb _) (hb _)
    · intro h; exact Result.noConfusion h
  · intro c inp r st e hc
    simp only [Test03, hc]
    split
    · rename_i err he
      intro h; simp only [Result.err.injEq] at h; subst h
      exact isCertificationError_of_isEqual E _ _ _ he (hn _) (hn _)
    · intro h; exact Result.noConfusion h
  · intro c inp r st e hc h1 h2
    simp only [Test04, hc]
    split
    · rename_i err he
      intro h; simp only [Result.err.injEq] at h; subst h
      exact isCertificationError_of_isEqual E _ _ _ he (hasJSON_float E _ h1)
        (hasJSON_float E _ h2)
    · intro h; exact Result.noConfusion h
  · intro c inp st e hc
    simp only [Test05, hc]
    split
    · rename_i err he
      intro h; simp only [Result.err.injEq] at h; subst h
      exact isCertificationError_of_isEqual E _ _ _ he (hs _) (hs _)
    · intro h; exact Result.noConfusion h
  · intro c inp st e hc h1 h2
    simp only [Test06, hc]
    split
    · rename_i err he
      intro h; simp only [Result.err.injEq] at h; subst h
      exact isCertificationError_of_isEqual E _ _ _ he (hb _) (hb _)
    · split
      · rename_i err he
        intro h; simp only [Result.err.injEq] at h; subst h
        exact isCertificationError_of_isEqual E _ _ _ he (hn _) (hn _)
      · split
        · rename_i err he
          intro h; simp only [Result.err.injEq] at h; subst h
          exact isCertificationError_of_isEqual E _ _ _ he (hasJSON_float E _ h1)
            (hasJSON_float E _ h2)
        · split
          · rename_i err he
            intro h; simp only [Result.err.injEq] at h; subst h
            exact isCertificationError_of_isEqual E _ _ _ he (hs _) (hs _)
          · intro h; exact Result.noConfusion h
  · intro c inp d st e hc h1 h2
    simp only [Test07, hc]
    split
    · rename_i err he
      intro h; simp only [Result.err.injEq] at h; subst h
      exact isCertificationError_of_isEqual E _ _ _ he (hasJSON_struct E _ h1)
        (hasJSON_struct E _ h2)
    · intro h; exact Result.noConfusion h
  · intro c inp st e hc
    simp only [Test08, hc]
    split
    · rename_i err he
      intro h; simp only [Result.err.injEq] at h; subst h
      exact isCertificationError_of_isEqual E _ _ _ he (hm _) (hm _)
    · split
      · intro h; exact Result.noConfusion h
      · intro h; exact Result.noConfusion h
  · intro c inp st e hc
    simp only [Test09, hc]
    split
    · rename_i err he
      intro h; simp only [Result.err.injEq] at h; subst h
      exact isCertificationError_of_isEqual E _ _ _ he (ht _) (ht _)
    · intro h; exact Result.noConfusion h
  · intro c inp st e o1 o2 hc h1 h2
    simp only [Test10, hc]
    split
    · rename_i err he
      intro h; simp only [Result.err.injEq] at h; subst h
      exact isCertificationError_of_isEqual E _ _ _ he (hasJSON_myType E _ o1 h1)
        (hasJSON_myType E _ o2 h2)
    · intro h; exact Result.noConfusion h

/-- Instance of `validation_error_kind`: `isEqual` called with the strings `x`
and the empty string returns a `CertificationErrorError` whose `Got` and `Wants` are their
JSON texts. -/
theorem validation_error_kind_witness :
    ∃ g w, Marshal sampleEncoding (.string (goString "x")) = .ok g ∧
      Marshal sampleEncoding (.string (goString "")) = .ok w ∧
      GoError.CertificationErrorError (goString "\"x\"") (goString "\"\"") =
        .CertificationErrorError g w :=
  (validation_error_kind sampleEncoding).1 (.string (goString "x")) (.string (goString ""))
    (.CertificationErrorError (goString "\"x\"") (goString "\"\"")) (by decide)
    ⟨_, rfl⟩ ⟨_, rfl⟩

/-- Counterexample to C6: the nil map and the allocated empty map contain the
same key/value pairs (none), and so do the nil set and the allocated empty
set, yet `isEqual` returns a `CertificationErrorError` on each pair: `null`
against `{}`. -/
theorem nil_map_is_not_empty_map :
    (∀ kv : GoString × GoString,
      kv ∈ (none : GoMap).getD [] ↔ kv ∈ (some [] : GoMap).getD []) ∧
    (∀ E, isEqual E (.stringMap none) (.stringMap (some [])) =
      some (.CertificationErrorError (goString "null") (goString "\x7b\x7d"))) ∧
    (∀ E, isEqual E (.stringSet none) (.stringSet (some [])) =
      some (.CertificationErrorError (goString "null") (goString "\x7b\x7d"))) := by
  refine ⟨fun _ => Iff.rfl, fun E => ?_, fun E => ?_⟩
  · have h1 : DeepEqual (.stringMap none) (.stringMap (some [])) = false := by decide
    have h2 : marshalMap none ≠ marshalMap (some []) := by decide
    simp only [isEqual, h1, Marshal, h2]
    rfl
  · have h1 : DeepEqual (.stringSet none) (.stringSet (some [])) = false := by decide
    have h2 : marshalSet none ≠ marshalSet (some []) := by decide
    simp only [isEqual, h1, Marshal, h2]
    rfl

/-- C6, amended. Order-insensitive equality: two allocated `map[string]string`
(keys unique in each) that contain the same key/value pairs, in whatever
order each enumerates them, are equal for `isEqual`, and so are two allocated
sets with the same members; two nil maps, and two nil sets, are equal too. -/
theorem order_insensitive (E : Encoding) (a b : List (GoString × GoString))
    (x y : List GoString) (ha : (a.map Prod.fst).Nodup) (hb : (b.map Prod.fst).Nodup)
    (hab : ∀ kv, kv ∈ a ↔ kv ∈ b) (hx : x.Nodup) (hy : y.Nodup) (hxy : ∀ k, k ∈ x ↔ k ∈ y) :
    isEqual E (.stringMap (some a)) (.stringMap (some b)) = none ∧
    isEqual E (.stringSet (some x)) (.stringSet (some y)) = none ∧
    isEqual E (.stringMap none) (.stringMap none) = none ∧
    isEqual E (.stringSet none) (.stringSet none) = none := by
  refine ⟨isEqual_of_deepEqual E _ _ ?_, isEqual_of_deepEqual E _ _ ?_,
    isEqual_of_deepEqual E _ _ (by decide), isEqual_of_deepEqual E _ _ (by decide)⟩
  · simpa [DeepEqual] using deepEqualMap_of_same_entries a b ha hb hab
  · simpa [DeepEqual] using deepEqualSet_of_same_members x y hx hy hxy

/-- Witness of C6, amended: the maps `{"key1":"a","key2":"b"}` and
`{"key2":"b","key1":"a"}` are equal for `isEqual`, and so are the sets
`{set1, set2}` and `{set2, set1}`. -/
theorem order_insensitive_witness :
    isEqual sampleEncoding
      (.stringMap (some [(goString "key1", goString "a"), (goString "key2", goString "b")]))
      (.stringMap (some [(goString "key2", goString "b"), (goString "key1", goString "a")])) =
      none ∧
    isEqual sampleEncoding
      (.stringSet (some [goString "set1", goString "set2"]))
      (.stringSet (some [goString "set2", goString "set1"])) = none :=
  have h := order_insensitive sampleEncoding
    [(goString "key1", goString "a"), (goString "key2", goString "b")]
    [(goString "key2", goString "b"), (goString "key1", goString "a")]
    [goString "set1", goString "set2"] [goString "set2", goString "set1"]
    (by decide) (by decide)
    (fun kv => by simp only [List.mem_cons, List.mem_singleton, List.not_mem_nil, or_false]
                  exact or_comm)
    (by decide) (by decide)
    (fun k => by simp only [List.mem_cons, List.mem_singleton, List.not_mem_nil, or_false]
                 exact or_comm)
  ⟨h.1, h.2.1⟩

/-- Counterexample to C7: two compound values that agree on every field but
the array, whose arrays are the different one-element sequences `["\xff"]` and
`["\xfe"]`. `json.Marshal` writes both strings as the escape of U+FFFD, so
the two values have the same JSON text: `isEqual` returns nil on them, `Test10`
called with the one in a session that stores the other replies, and whatever
the text of the other fields `isEqual` returns no `CertificationErrorError`. -/
theorem invalid_bytes_compare_equal :
    myTypeFF.Array ≠ myTypeFE.Array ∧
    myTypeFE = { myTypeFF with Array := myTypeFE.Array } ∧
    isEqual sampleEncoding (.myType myTypeFF) (.myType myTypeFE) = none ∧
    (Test10 sampleEncoding (emptyBackend.set tokenA { newState with dtoMyType := myTypeFE })
      ⟨tokenA, myTypeFF⟩).2 = .ok { String := goString "test10-reply" } ∧
    ¬ ∃ E g w, isEqual E (.myType myTypeFF) (.myType myTypeFE) =
      some (.CertificationErrorError g w) := by
  have hd : DeepEqual (.myType myTypeFF) (.myType myTypeFE) = false := by decide
  have hs : marshalSlice myTypeFF.Array = marshalSlice myTypeFE.Array := by decide
  have key : ∀ E, isEqual E (.myType myTypeFF) (.myType myTypeFE) = none ∨
      ∃ raw, isEqual E (.myType myTypeFF) (.myType myTypeFE) = some (.MarshalerError raw) := by
    intro E
    simp only [isEqual, hd, Marshal, marshalMyType, marshalRaw]
    have ho : myTypeFE.Object = myTypeFF.Object := rfl
    rw [ho]
    cases E.compact (myTypeFF.Object.getD (goString "null")) with
    | none => right; exact ⟨_, rfl⟩
    | some o =>
      left
      have : myTypeHead o myTypeFF ++ marshalSlice myTypeFF.Array ++ myTypeTail myTypeFF =
          myTypeHead o myTypeFE ++ marshalSlice myTypeFE.Array ++ myTypeTail myTypeFE := by
        rw [hs]; rfl
      simp [this]
  have hn : isEqual sampleEncoding (.myType myTypeFF) (.myType myTypeFE) = none := by
    rcases key sampleEncoding with h | ⟨raw, h⟩
    · exact h
    · exfalso
      simp only [isEqual, hd, Marshal, marshalMyType, marshalRaw, sampleEncoding] at h
      split at h <;> simp at h
  refine ⟨by decide, rfl, hn, ?_, ?_⟩
  · simp only [Test10, set_same, hn]
  · rintro ⟨E, g, w, h⟩
    rcases key E with h' | ⟨raw, h'⟩ <;> rw [h'] at h <;> simp at h

/-- C7, amended. Ordered sequences stay order-sensitive: for two `MyType`
values that agree on every field but `Array`, whose `Array` fields differ,
whose array strings are all valid UTF-8 and whose `Object` has a JSON text,
`isEqual` returns a `CertificationErrorError` with the JSON texts of the two
values; so `Test10` called with such a value against the stored compound
fails with that error. -/
theorem array_order_sensitive (E : Encoding) (a b : MyType) (o : List Byte)
    (hobj : E.compact (a.Object.getD (goString "null")) = some o)
    (hsame : b = { a with Array := b.Array })
    (hne : a.Array ≠ b.Array)
    (hva : ∀ s ∈ a.Array.getD [], validString s = true)
    (hvb : ∀ s ∈ b.Array.getD [], validString s = true) :
    ∃ g w, Marshal E (.myType a) = .ok g ∧ Marshal E (.myType b) = .ok w ∧
      isEqual E (.myType a) (.myType b) = some (.CertificationErrorError g w) ∧
      ∀ (c : certificationBackend) (id : GoString) (st : clientState),
        c.clientStates id = some st → st.dtoMyType = b →
        Test10 E c ⟨id, a⟩ = (c, .err (.CertificationErrorError g w)) := by
  have hbo : b.Object = a.Object := by rw [hsame]
  have hbh : myTypeHead o b = myTypeHead o a := by rw [hsame]; rfl
  have hbt : myTypeTail b = myTypeTail a := by rw [hsame]; rfl
  have hg : Marshal E (.myType a) =
      .ok (myTypeHead o a ++ marshalSlice a.Array ++ myTypeTail a) := by
    simp only [Marshal, marshalMyType, marshalRaw, hobj]
  have hw : Marshal E (.myType b) =
      .ok (myTypeHead o a ++ marshalSlice b.Array ++ myTypeTail a) := by
    simp only [Marshal, marshalMyType, marshalRaw, hbo, hobj, hbh, hbt]
  have hd : DeepEqual (.myType a) (.myType b) = false := by
    have : (a.Array == b.Array) = false := by simpa using hne
    simp [DeepEqual, deepEqualMyType, this]
  have hj : myTypeHead o a ++ marshalSlice a.Array ++ myTypeTail a ≠
      myTypeHead o a ++ marshalSlice b.Array ++ myTypeTail a := by
    intro h
    rw [List.append_assoc, List.append_assoc] at h
    exact hne (marshalSlice_inj a.Array b.Array hva hvb
      (List.append_cancel_right (List.append_cancel_left h)))
  have he : isEqual E (.myType a) (.myType b) = some (.CertificationErrorError
      (myTypeHead o a ++ marshalSlice a.Array ++ myTypeTail a)
      (myTypeHead o a ++ marshalSlice b.Array ++ myTypeTail a)) := by
    simp only [isEqual, hd, hg, hw, hj]
    rfl
  refine ⟨_, _, hg, hw, he, fun c id st hc hst => ?_⟩
  simp only [Test10, hc, hst, he]

/-- Witness of C7, amended: the compound value of a fresh session with the
first two elements of its array swapped is not equal to the original, and
`Test10` called with it in a session that stores the original fails with a
`CertificationErrorError`. -/
theorem array_order_sensitive_witness :
    ∃ g w, isEqual sampleEncoding (.myType myTypeSwapped) (.myType (builtMyType newState)) =
        some (.CertificationErrorError g w) ∧
      Test10 sampleEncoding
        (emptyBackend.set tokenA { newState with dtoMyType := builtMyType newState })
        ⟨tokenA, myTypeSwapped⟩ =
        (emptyBackend.set tokenA { newState with dtoMyType := builtMyType newState },
          .err (.CertificationErrorError g w)) := by
  obtain ⟨g, w, _, _, h1, h2⟩ := array_order_sensitive sampleEncoding myTypeSwapped
    (builtMyType newState) (goString "\x7b\"foo\":\"bar\"\x7d") rfl rfl (by decide)
    (by decide) (by decide)
  exact ⟨g, w, h1, h2 _ tokenA _ (set_same _ _ _) rfl⟩

/-- Counterexample to C8: with every draw `0`, `Start` returns `tokenA`; in
the registry `backendA` that token is already a key, and the session it named,
whose stored bool was `true`, is replaced by a zeroed one. -/
theorem start_token_not_fresh :
    (Start backendA zeroDraws).2 = .ok { ClientId := tokenA } ∧
    backendA.clientStates tokenA = some { newState with bool := true } ∧
    (Start backendA zeroDraws).1.clientStates tokenA = some newState ∧
    (Start backendA zeroDraws).1.clientStates tokenA ≠ backendA.clientStates tokenA := by
  refine ⟨rfl, by decide, by decide, by decide⟩

/-- C8, amended. `Start` returns the token `randomString(32)` draws, which
has 32 characters, and maps it to a zeroed state, whether or not the token was
a key of the registry before; every session under another token is unchanged.
So when the token was not a key of the registry before the call, every session
that existed before is still present with its state unchanged. -/
theorem start_keeps_sessions (c : certificationBackend) (d : Nat → Fin runes.length) :
    (Start c d).2 = .ok { ClientId := randomString 32 d } ∧
    (randomString 32 d).length = 32 ∧
    (Start c d).1.clientStates (randomString 32 d) = some newState ∧
    (∀ k, k ≠ randomString 32 d → (Start c d).1.clientStates k = c.clientStates k) ∧
    (c.clientStates (randomString 32 d) = none →
      ∀ k st, c.clientStates k = some st → (Start c d).1.clientStates k = some st) := by
  have hs : Start c d = (c.set (randomString 32 d) newState, .ok ⟨randomString 32 d⟩) := rfl
  rw [hs]
  refine ⟨rfl, randomString_length 32 d, set_same _ _ _, fun k hk => set_other _ _ _ _ hk,
    fun h k st hk => ?_⟩
  have hne : k ≠ randomString 32 d := by
    rintro rfl
    rw [h] at hk
    exact Option.noConfusion hk
  simp only [set_other _ _ _ _ hne, hk]

/-- Witness of C8, amended: in a registry whose only token is `T`, the token
drawn with every draw `0` is not a key, and `Start` keeps the session of `T`. -/
theorem start_keeps_sessions_witness :
    (emptyBackend.set (goString "T") newState).clientStates tokenA = none ∧
    (Start (emptyBackend.set (goString "T") newState) zeroDraws).1.clientStates
      (goString "T") = some newState :=
  ⟨by decide,
    (start_keeps_sessions (emptyBackend.set (goString "T") newState) zeroDraws).2.2.2.2
      (by decide) (goString "T") newState (by decide)⟩

/-- C9. Idempotent termination: when the registry contains the token, `End`
replies `AllOk = true` and the registry no longer contains the token; a
second `End` with the same token returns `ClientIdErrorError` and changes
nothing. -/
theorem end_twice (c : certificationBackend) (id : GoString) (st : clientState)
    (h : c.clientStates id = some st) :
    (End c ⟨id⟩).2 = .ok { AllOk := true } ∧
    (End c ⟨id⟩).1.clientStates id = none ∧
    End (End c ⟨id⟩).1 ⟨id⟩ = ((End c ⟨id⟩).1, .err .ClientIdErrorError) := by
  have h1 : End c ⟨id⟩ = (c.delete id, .ok { AllOk := true }) := End_ok c id st h
  have h2 : (c.delete id).clientStates id = none := by simp [certificationBackend.delete]
  rw [h1]
  refine ⟨rfl, h2, ?_⟩
  simp [End, h2]

/-- Witness of C9: the session `Start` creates in the empty backend is ended
once, and the second `End` returns `ClientIdErrorError`. -/
theorem end_twice_witness :
    (End (Start emptyBackend zeroDraws).1 ⟨randomString 32 zeroDraws⟩).2 =
      .ok { AllOk := true } ∧
    (End (End (Start emptyBackend zeroDraws).1 ⟨randomString 32 zeroDraws⟩).1
      ⟨randomString 32 zeroDraws⟩).2 = .err .ClientIdErrorError :=
  have h := end_twice (Start emptyBackend zeroDraws).1 (randomString 32 zeroDraws) newState
    (by decide)
  ⟨h.1, by rw [h.2.2]⟩

/-- C10. Session isolation: each of `Test01` .. `Test11` called with the token
`T`, whatever the other arguments, leaves the set of tokens of the registry
unchanged and leaves the state of every session other than `T` unchanged;
`End` called with `T` leaves every session other than `T` unchanged and adds
no session. -/
theorem session_isolation (E : Encoding) (c : certificationBackend) (T : GoString)
    (r1 r2 : Nat) (r3 : RandFloat64) (d4 d7 : Nat → Fin runes.length) (b b6 : GoBool)
    (n n6 : GoInt) (f f6 : Float64) (s s6 : GoString) (o : DtoStruct) (m : GoMap)
    (st : GoSet) (mt : MyType) {α : Type} (flag : α) :
    KeepsOthers T c (Test01 c ⟨T⟩ r1).1 ∧
    KeepsOthers T c (Test02 E c ⟨T, b⟩ r2).1 ∧
    KeepsOthers T c (Test03 E c ⟨T, n⟩ r3).1 ∧
    KeepsOthers T c (Test04 E c ⟨T, f⟩ d4).1 ∧
    KeepsOthers T c (Test05 E c ⟨T, s⟩).1 ∧
    KeepsOthers T c (Test06 E c ⟨T, b6, n6, f6, s6⟩).1 ∧
    KeepsOthers T c (Test07 E c ⟨T, o⟩ d7).1 ∧
    KeepsOthers T c (Test08 E c ⟨T, m⟩).1 ∧
    KeepsOthers T c (Test09 E c ⟨T, st⟩).1 ∧
    KeepsOthers T c (Test10 E c ⟨T, mt⟩).1 ∧
    KeepsOthers T c (Test11 c ⟨T, flag⟩).1 ∧
    (∀ k, k ≠ T → (End c ⟨T⟩).1.clientStates k = c.clientStates k) ∧
    ((End c ⟨T⟩).1.clientStates T = none) := by
  refine ⟨?_, ?_, ?_, ?_, ?_, ?_, ?_, ?_, ?_, ?_, ?_, ?_, ?_⟩
  · unfold Test01; split
    · exact keepsOthers_refl T c
    · exact keepsOthers_set T c _ _ (by assumption)
  · unfold Test02; repeat' split
    all_goals first | exact keepsOthers_refl T c | exact keepsOthers_set T c _ _ (by assumption)
  · unfold Test03; repeat' split
    all_goals first | exact keepsOthers_refl T c | exact keepsOthers_set T c _ _ (by assumption)
  · unfold Test04; repeat' split
    all_goals first | exact keepsOthers_refl T c | exact keepsOthers_set T c _ _ (by assumption)
  · unfold Test05; repeat' split
    all_goals exact keepsOthers_refl T c
  · unfold Test06; repeat' split
    all_goals first | exact keepsOthers_refl T c | exact keepsOthers_set T c _ _ (by assumption)
  · unfold Test07; repeat' split
    all_goals first | exact keepsOthers_refl T c | exact keepsOthers_set T c _ _ (by assumption)
  · unfold Test08; repeat' split
    all_goals first | exact keepsOthers_refl T c | exact keepsOthers_set T c _ _ (by assumption)
  · unfold Test09; repeat' split
    all_goals first | exact keepsOthers_refl T c | exact keepsOthers_set T c _ _ (by assumption)
  · unfold Test10; repeat' split
    all_goals exact keepsOthers_refl T c
  · unfold Test11; repeat' split
    all_goals exact keepsOthers_refl T c
  · intro k hk
    unfold End; split
    · rfl
    · simp [certificationBackend.delete, hk]
  · unfold End; split
    · assumption
    · simp [certificationBackend.delete]

/-- C11. For every length and every sequence of draws `randomString` returns
a string of exactly that many characters, each a lowercase letter or a digit;
so the token `Start` returns has exactly 32 such characters and the string a
successful `Test04` returns has exactly 8. -/
theorem randomString_spec (n : Nat) (intn : Nat → Fin runes.length) :
    (randomString n intn).length = n ∧
    (∀ b ∈ randomString n intn, isLowerOrDigit b = true) ∧
    (∀ (c : certificationBackend) (d : Nat → Fin runes.length),
      ∃ tok, (Start c d).2 = .ok { ClientId := tok } ∧ tok.length = 32 ∧
        ∀ b ∈ tok, isLowerOrDigit b = true) ∧
    (∀ (E : Encoding) (c : certificationBackend) (inp : Test04In)
      (d : Nat → Fin runes.length) (out : Test04Out),
      (Test04 E c inp d).2 = .ok out →
        out.String.length = 8 ∧ ∀ b ∈ out.String, isLowerOrDigit b = true) := by
  refine ⟨randomString_length n intn, randomString_bytes n intn, fun c d => ?_,
    fun E c inp d out h => ?_⟩
  · exact ⟨randomString 32 d, rfl, randomString_length 32 d, randomString_bytes 32 d⟩
  · unfold Test04 at h
    split at h
    · exact Result.noConfusion h
    · split at h
      · exact Result.noConfusion h
      · simp only [Result.ok.injEq] at h
        subst h
        exact ⟨randomString_length 8 d, randomString_bytes 8 d⟩

/-- C12. Step 8 derives the set from the map's keys: in every backend reached
by any sequence of handler calls after `Start` created a session, a successful
`Test08` on that session returns, and stores, an allocated set whose members
are exactly the keys of the session's stored map. -/
theorem test08_set_is_keys (E : Encoding) (c0 c : certificationBackend)
    (d : Nat → Fin runes.length) (st : clientState) (m : GoMap) (out : Test08Out)
    (hr : Reachable E (Start c0 d).1 c)
    (hst : c.clientStates (randomString 32 d) = some st)
    (hok : (Test08 E c ⟨randomString 32 d, m⟩).2 = .ok out) :
    (∀ k, k ∈ out.Set.getD [] ↔ k ∈ (st.dtoMap.getD []).map Prod.fst) ∧
    out.Set ≠ none ∧
    (Test08 E c ⟨randomString 32 d, m⟩).1.clientStates (randomString 32 d) =
      some { st with dtoSet := out.Set } := by
  have h0 : SetFollowsMapAt (randomString 32 d) (Start c0 d).1 := by
    intro s hs
    have : (Start c0 d).1.clientStates (randomString 32 d) = some newState :=
      set_same c0 _ newState
    rw [this] at hs
    simp only [Option.some.injEq] at hs
    subst hs
    exact setFollowsMap_newState
  have hinv := setFollowsMapAt_reachable E _ _ _ hr h0 st hst
  obtain ⟨l, h1, h2, _⟩ := rangeInsert_of_setFollowsMap st hinv
  simp only [Test08, hst] at hok ⊢
  cases he : isEqual E (.stringMap m) (.stringMap st.dtoMap) with
  | some e =>
    rw [he] at hok
    exact Result.noConfusion hok
  | none =>
    rw [he] at hok
    simp only [h1, Result.ok.injEq] at hok ⊢
    subst hok
    exact ⟨h2, by simp, set_same _ _ _⟩

/-- Witness of C12: after `Start` and `Test07` with every draw `0`, `Test08`
called with the stored map returns and stores the set `{key1, key2}`. -/
theorem test08_set_is_keys_witness :
    (Test08 sampleEncoding
      (Test07 sampleEncoding (Start emptyBackend zeroDraws).1
        ⟨tokenA, newState.dtoStruct⟩ zeroDraws).1
      ⟨tokenA, some [(goString "key1", randomString 8 zeroDraws),
        (goString "key2", randomString 8 zeroDraws)]⟩).2 =
      .ok { Set := some [goString "key1", goString "key2"] } ∧
    (Test08 sampleEncoding
      (Test07 sampleEncoding (Start emptyBackend zeroDraws).1
        ⟨tokenA, newState.dtoStruct⟩ zeroDraws).1
      ⟨tokenA, some [(goString "key1", randomString 8 zeroDraws),
        (goString "key2", randomString 8 zeroDraws)]⟩).1.clientStates tokenA =
      some { newState with
        dtoMap := some [(goString "key1", randomString 8 zeroDraws),
          (goString "key2", randomString 8 zeroDraws)],
        dtoSet := some [goString "key1", goString "key2"] } :=
  ⟨by decide,
    (test08_set_is_keys sampleEncoding emptyBackend _ zeroDraws
      { newState with dtoMap := some [(goString "key1", randomString 8 zeroDraws),
          (goString "key2", randomString 8 zeroDraws)] }
      (some [(goString "key1", randomString 8 zeroDraws),
        (goString "key2", randomString 8 zeroDraws)])
      { Set := some [goString "key1", goString "key2"] }
      (Relation.ReflTransGen.single (Step.test07 _ ⟨tokenA, newState.dtoStruct⟩ zeroDraws))
      (by decide) (by decide)).2.2⟩

/-- C13. Step 9 compound value: in every session, `Test09` called with a set
that `isEqual` accepts against the stored set (the stored set itself is one,
no key occurring twice in it) returns and stores a `MyType` whose `Enum` is
`two`, `Array` is `["one","two","three"]`, `Dictionary` is
`{key1:value1, key2:value2}`, `Stringset` is `{set1, set2}`, `Object` is
`{"foo":"bar"}`, `Struct` holds the stored integer and the stored string, and
`Nullable` is present with the value `nullable-value`. -/
theorem test09_compound (E : Encoding) (c : certificationBackend) (id : GoString)
    (st : clientState) (h : c.clientStates id = some st) :
    ∃ mt : MyType,
      (∀ s : GoSet, isEqual E (.stringSet s) (.stringSet st.dtoSet) = none →
        Test09 E c ⟨id, s⟩ =
          (c.set id { st with dtoMyType := mt }, .ok { Mytype := mt })) ∧
      ((st.dtoSet.getD []).Nodup →
        Test09 E c ⟨id, st.dtoSet⟩ =
          (c.set id { st with dtoMyType := mt }, .ok { Mytype := mt })) ∧
      mt.Enum = goString "two" ∧
      mt.Array = some [goString "one", goString "two", goString "three"] ∧
      mt.Dictionary = some [(goString "key1", goString "value1"),
        (goString "key2", goString "value2")] ∧
      mt.Stringset = some [goString "set1", goString "set2"] ∧
      mt.Object = some (goString "\x7b\"foo\":\"bar\"\x7d") ∧
      mt.Struct = { First := st.integer, Second := st.string } ∧
      mt.Nullable = some (goString "nullable-value") := by
  have key : ∀ s : GoSet, isEqual E (.stringSet s) (.stringSet st.dtoSet) = none →
      Test09 E c ⟨id, s⟩ = (c.set id { st with dtoMyType := builtMyType st },
        .ok { Mytype := builtMyType st }) := by
    intro s hacc
    simp only [Test09, h, hacc]
    rfl
  refine ⟨builtMyType st, key, fun hn => key _ ?_, rfl, rfl, rfl, rfl, rfl, rfl, rfl⟩
  apply isEqual_of_deepEqual
  cases hs : st.dtoSet with
  | none => rfl
  | some l =>
    rw [hs] at hn
    simpa [DeepEqual] using deepEqualSet_of_same_members l l hn hn (fun _ => Iff.rfl)

/-- Witness of C13: in the session `Start` creates in the empty backend the
stored set is empty, and `Test09` called with the empty set replies with a
compound value whose `Enum` is `two`, whose `Struct` holds the integer `0` and
the empty string, and whose `Nullable` is `nullable-value`. -/
theorem test09_compound_witness :
    ∃ mt : MyType,
      (Test09 sampleEncoding (Start emptyBackend zeroDraws).1 ⟨tokenA, some []⟩).2 =
        .ok { Mytype := mt } ∧
      mt.Enum = goString "two" ∧ mt.Struct = { First := 0, Second := [] } ∧
      mt.Nullable = some (goString "nullable-value") := by
  obtain ⟨mt, h1, _, h2, _, _, _, _, h7, h8⟩ := test09_compound sampleEncoding
    (Start emptyBackend zeroDraws).1 tokenA newState (by decide)
  exact ⟨mt, by rw [h1 (some []) (by decide)], h2, h7, h8⟩

/-- C14. Step 5 returns the stored quadruple: in every session, `Test05`
called with a string that `isEqual` accepts against the stored string (the
stored string itself is one) returns the record made of the stored bool,
integer, float and string, and the backend, hence the state of the session,
is unchanged. -/
theorem test05_quadruple (E : Encoding) (c : certificationBackend) (id : GoString)
    (st : clientState) (h : c.clientStates id = some st) :
    (∀ s : GoString, isEqual E (.string s) (.string st.string) = none →
      Test05 E c ⟨id, s⟩ =
        (c, .ok { Bool := st.bool, Int := st.integer, Float := st.float,
                  String := st.string })) ∧
    Test05 E c ⟨id, st.string⟩ =
      (c, .ok { Bool := st.bool, Int := st.integer, Float := st.float,
                String := st.string }) := by
  have key : ∀ s : GoString, isEqual E (.string s) (.string st.string) = none →
      Test05 E c ⟨id, s⟩ =
        (c, .ok { Bool := st.bool, Int := st.integer, Float := st.float,
                  String := st.string }) := by
    intro s hacc
    simp only [Test05, h, hacc]
  exact ⟨key, key _ (isEqual_of_deepEqual E _ _ (by simp [DeepEqual]))⟩

/-- Witness of C14: in a fresh session `Test05` called with the empty string
returns the record of the zero values and leaves the backend as it was. -/
theorem test05_quadruple_witness :
    Test05 sampleEncoding (Start emptyBackend zeroDraws).1 ⟨tokenA, []⟩ =
      ((Start emptyBackend zeroDraws).1,
        .ok { Bool := false, Int := 0, Float := Float64.zero, String := [] }) :=
  (test05_quadruple sampleEncoding (Start emptyBackend zeroDraws).1 tokenA newState
    (by decide)).2

/-- C15. Step 6 stores and echoes the record: in an existing session `Test06`
succeeds exactly when `isEqual` accepts the four input fields against the
stored bool, integer, float and string; on success the returned record is the
input record field for field, the stored record becomes that record, and the
stored bool, integer, float and string are unchanged. -/
theorem test06_record (E : Encoding) (c : certificationBackend) (inp : Test06In)
    (st : clientState) (h : c.clientStates inp.ClientId = some st) :
    ((∃ out, (Test06 E c inp).2 = .ok out) ↔
      (isEqual E (.bool inp.Bool) (.bool st.bool) = none ∧
       isEqual E (.int inp.Int) (.int st.integer) = none ∧
       isEqual E (.float64 inp.Float) (.float64 st.float) = none ∧
       isEqual E (.string inp.String) (.string st.string) = none)) ∧
    (∀ out, (Test06 E c inp).2 = .ok out →
      out.Struct = { Bool := inp.Bool, Float := inp.Float, Int := inp.Int,
                     String := inp.String } ∧
      (Test06 E c inp).1.clientStates inp.ClientId =
        some { st with dtoStruct := out.Struct } ∧
      ∃ st', (Test06 E c inp).1.clientStates inp.ClientId = some st' ∧
        st'.dtoStruct = out.Struct ∧ st'.bool = st.bool ∧ st'.integer = st.integer ∧
        st'.float = st.float ∧ st'.string = st.string) := by
  simp only [Test06, h]
  cases h1 : isEqual E (.bool inp.Bool) (.bool st.bool) with
  | some e => simp
  | none =>
    cases h2 : isEqual E (.int inp.Int) (.int st.integer) with
    | some e => simp
    | none =>
      cases h3 : isEqual E (.float64 inp.Float) (.float64 st.float) with
      | some e => simp
      | none =>
        cases h4 : isEqual E (.string inp.String) (.string st.string) with
        | some e => simp
        | none =>
          simp only [Result.ok.injEq, exists_eq', and_self, true_iff, true_and]
          intro out hout
          subst hout
          simp only [set_same, true_and]
          exact ⟨_, rfl, rfl, rfl, rfl, rfl, rfl⟩

/-- Witness of C15: in a fresh session `Test06` called with the stored values,
the float written `-0` in place of `+0`, succeeds and echoes the input
record. -/
theorem test06_record_witness :
    (Test06 sampleEncoding (Start emptyBackend zeroDraws).1
      ⟨tokenA, false, 0, ⟨2 ^ 63, by decide⟩, []⟩).2 =
      .ok { Struct := { Bool := false, Float := ⟨2 ^ 63, by decide⟩, Int := 0, String := [] } } := by
  have h := (test06_record sampleEncoding (Start emptyBackend zeroDraws).1
    ⟨tokenA, false, 0, ⟨2 ^ 63, by decide⟩, []⟩ newState (by decide)).1.2
    ⟨by decide, by decide, by decide, by decide⟩
  obtain ⟨out, hout⟩ := h
  have h2 := ((test06_record sampleEncoding (Start emptyBackend zeroDraws).1
    ⟨tokenA, false, 0, ⟨2 ^ 63, by decide⟩, []⟩ newState (by decide)).2 out hout).1
  rw [hout, ← h2]

/-- C16. Step 7 produces a 2-entry map: in every session, `Test07` called with
a record that `isEqual` accepts against the stored record (the stored record
itself is one, unless its float is a NaN, which equals nothing) returns a map
with exactly the two keys `key1` and `key2`, each mapped to a string of 8
characters among `a`-`z`, `0`-`9`, and the stored map after the call is the
returned map, whatever map was stored before. -/
theorem test07_map (E : Encoding) (c : certificationBackend) (id : GoString)
    (st : clientState) (intn : Nat → Fin runes.length)
    (h : c.clientStates id = some st) :
    ∃ v1 v2 : GoString,
      (∀ r : DtoStruct, isEqual E (.dtoStruct r) (.dtoStruct st.dtoStruct) = none →
        Test07 E c ⟨id, r⟩ intn =
          (c.set id { st with dtoMap := some [(goString "key1", v1), (goString "key2", v2)] },
            .ok { Map := some [(goString "key1", v1), (goString "key2", v2)] })) ∧
      (st.dtoStruct.Float.isNaN = false →
        Test07 E c ⟨id, st.dtoStruct⟩ intn =
          (c.set id { st with dtoMap := some [(goString "key1", v1), (goString "key2", v2)] },
            .ok { Map := some [(goString "key1", v1), (goString "key2", v2)] })) ∧
      (c.set id { st with dtoMap := some [(goString "key1", v1), (goString "key2", v2)]
        }).clientStates id =
        some { st with dtoMap := some [(goString "key1", v1), (goString "key2", v2)] } ∧
      goString "key1" ≠ goString "key2" ∧
      v1.length = 8 ∧ (∀ b ∈ v1, isLowerOrDigit b = true) ∧
      v2.length = 8 ∧ (∀ b ∈ v2, isLowerOrDigit b = true) := by
  have key : ∀ r : DtoStruct, isEqual E (.dtoStruct r) (.dtoStruct st.dtoStruct) = none →
      Test07 E c ⟨id, r⟩ intn =
        (c.set id { st with dtoMap := some [(goString "key1", randomString 8 intn),
            (goString "key2", randomString 8 (fun i => intn (8 + i)))] },
          .ok { Map := some [(goString "key1", randomString 8 intn),
            (goString "key2", randomString 8 (fun i => intn (8 + i)))] }) := by
    intro r hacc
    simp only [Test07, h, hacc]
  refine ⟨randomString 8 intn, randomString 8 (fun i => intn (8 + i)), key,
    fun hf => key _ ?_, set_same _ _ _, by decide,
    randomString_length _ _, randomString_bytes _ _, randomString_length _ _,
    randomString_bytes _ _⟩
  exact isEqual_of_deepEqual E _ _
    (by simp [DeepEqual, deepEqualStruct, Float64.eq_self _ hf])

/-- Witness of C16: in a fresh session `Test07` called with the zero record
returns a map `{key1: v1, key2: v2}` with `v1` and `v2` of 8 characters. -/
theorem test07_map_witness :
    ∃ v1 v2 : GoString,
      (Test07 sampleEncoding (Start emptyBackend zeroDraws).1
        ⟨tokenA, newState.dtoStruct⟩ zeroDraws).2 =
        .ok { Map := some [(goString "key1", v1), (goString "key2", v2)] } ∧
      v1.length = 8 ∧ v2.length = 8 := by
  obtain ⟨v1, v2, _, h2, _, _, h3, _, h5, _⟩ := test07_map sampleEncoding
    (Start emptyBackend zeroDraws).1 tokenA newState zeroDraws (by decide)
  exact ⟨v1, v2, by rw [h2 (by decide)], h3, h5⟩

/-- C17. Step 11 is a pure acknowledgement: whatever the registry, the token
and the flag, `Test11` leaves the backend, hence every stored value of every
session, unchanged; it returns the empty reply when the token is present and
`ClientIdErrorError` when it is absent. -/
theorem test11_acknowledges {α : Type} (c : certificationBackend) (T : GoString) (flag : α) :
    (Test11 c ⟨T, flag⟩).1 = c ∧
    (∀ st, c.clientStates T = some st → (Test11 c ⟨T, flag⟩).2 = .ok {}) ∧
    (c.clientStates T = none → (Test11 c ⟨T, flag⟩).2 = .err .ClientIdErrorError) := by
  unfold Test11
  cases h : c.clientStates T <;> simp

/-- C18. Step 10 fixed reply: in a session whose stored compound `isEqual`
accepts the input compound against, `Test10` returns the string
`test10-reply`, and the backend, hence the state of the session, is
unchanged; the handler takes no random draw. -/
theorem test10_reply (E : Encoding) (c : certificationBackend) (id : GoString)
    (st : clientState) (mt : MyType) (h : c.clientStates id = some st)
    (hacc : isEqual E (.myType mt) (.myType st.dtoMyType) = none) :
    Test10 E c ⟨id, mt⟩ = (c, .ok { String := goString "test10-reply" }) := by
  simp only [Test10, h, hacc]

/-- Witness of C18: in a session that stores the compound value of `Test09`,
`Test10` called with that value returns `test10-reply`. -/
theorem test10_reply_witness :
    (Test10 sampleEncoding
      (emptyBackend.set tokenA { newState with dtoMyType := builtMyType newState })
      ⟨tokenA, builtMyType newState⟩).2 = .ok { String := goString "test10-reply" } := by
  rw [test10_reply sampleEncoding _ tokenA
    { newState with dtoMyType := builtMyType newState } (builtMyType newState)
    (set_same _ _ _) (by decide)]

/-- Counterexample to C19: the strings `"\xff"` and `"\xfe"` are different, so
not deeply equal, but `json.Marshal` writes both as the escape of U+FFFD, so
`isEqual` returns nil on them; likewise on the two one-entry maps that have
these strings as key. -/
theorem invalid_strings_same_json :
    DeepEqual (.string [0xFF]) (.string [0xFE]) = false ∧
    (∀ E, Marshal E (.string [0xFF]) = Marshal E (.string [0xFE])) ∧
    (∀ E, isEqual E (.string [0xFF]) (.string [0xFE]) = none) ∧
    DeepEqual (.stringMap (some [([0xFF], [])])) (.stringMap (some [([0xFE], [])])) = false ∧
    (∀ E, isEqual E (.stringMap (some [([0xFF], [])])) (.stringMap (some [([0xFE], [])])) =
      none) := by
  have h1 : appendString [0xFF] = appendString [0xFE] := by decide
  have h2 : marshalMap (some [([0xFF], [])]) = marshalMap (some [([0xFE], [])]) := by decide
  refine ⟨by decide, fun E => ?_, fun E => ?_, by decide, fun E => ?_⟩
  · simp only [Marshal, h1]
  · exact (isEqual_eq_none_iff E _ _).2 (Or.inr ⟨_, rfl, by simp only [Marshal, h1]⟩)
  · exact (isEqual_eq_none_iff E _ _).2 (Or.inr ⟨_, rfl, by simp only [Marshal, h2]⟩)

/-- C19, amended. The JSON fallback never weakens equality on booleans,
integers, valid UTF-8 strings and maps of valid UTF-8 strings: on two values
of one of these kinds `isEqual` returns nil if and only if they are deeply
equal, and two different booleans, integers or valid strings never have the
same JSON text. -/
theorem fallback_exact_on_valid (E : Encoding) :
    (∀ a b : GoBool, isEqual E (.bool a) (.bool b) = none ↔
      DeepEqual (.bool a) (.bool b) = true) ∧
    (∀ a b : GoInt, isEqual E (.int a) (.int b) = none ↔
      DeepEqual (.int a) (.int b) = true) ∧
    (∀ a b : GoString, validString a = true → validString b = true →
      (isEqual E (.string a) (.string b) = none ↔
        DeepEqual (.string a) (.string b) = true)) ∧
    (∀ a b : GoMap, ValidMap a → ValidMap b →
      (isEqual E (.stringMap a) (.stringMap b) = none ↔
        DeepEqual (.stringMap a) (.stringMap b) = true)) ∧
    (∀ a b : GoBool, Marshal E (.bool a) = Marshal E (.bool b) → a = b) ∧
    (∀ a b : GoInt, Marshal E (.int a) = Marshal E (.int b) → a = b) ∧
    (∀ a b : GoString, validString a = true → validString b = true →
      Marshal E (.string a) = Marshal E (.string b) → a = b) := by
  have hb : ∀ a b : GoBool, Marshal E (.bool a) = Marshal E (.bool b) → a = b := by
    intro a b h
    simp only [Marshal, Except.ok.injEq] at h
    revert h; revert a b; decide
  have hn : ∀ a b : GoInt, Marshal E (.int a) = Marshal E (.int b) → a = b := by
    intro a b h
    simp only [Marshal, Except.ok.injEq] at h
    exact appendInt_inj a b h
  have hs : ∀ a b : GoString, validString a = true → validString b = true →
      Marshal E (.string a) = Marshal E (.string b) → a = b := by
    intro a b ha hb' h
    simp only [Marshal, Except.ok.injEq] at h
    exact appendString_inj a b ha hb' h
  refine ⟨fun a b => ?_, fun a b => ?_, fun a b ha hb' => ?_, fun a b ha hb' => ?_, hb, hn, hs⟩
  · rw [isEqual_eq_none_iff]
    refine ⟨fun h => ?_, Or.inl⟩
    rcases h with h | ⟨j, h1, h2⟩
    · exact h
    · rw [hb a b (h1.trans h2.symm)]; simp [DeepEqual]
  · rw [isEqual_eq_none_iff]
    refine ⟨fun h => ?_, Or.inl⟩
    rcases h with h | ⟨j, h1, h2⟩
    · exact h
    · rw [hn a b (h1.trans h2.symm)]; simp [DeepEqual]
  · rw [isEqual_eq_none_iff]
    refine ⟨fun h => ?_, Or.inl⟩
    rcases h with h | ⟨j, h1, h2⟩
    · exact h
    · rw [hs a b ha hb' (h1.trans h2.symm)]; simp [DeepEqual]
  · rw [isEqual_eq_none_iff]
    refine ⟨fun h => ?_, Or.inl⟩
    rcases h with h | ⟨j, h1, h2⟩
    · exact h
    · have h12 : marshalMap a = marshalMap b := by
        have := h1.trans h2.symm
        simpa only [Marshal, Except.ok.injEq] using this
      simpa [DeepEqual] using deepEqualMap_of_marshalMap a b ha hb' h12

/-- Witness of C19, amended: on the valid strings `é` and `e`, which differ,
`isEqual` does not return nil. -/
theorem fallback_exact_on_valid_witness :
    isEqual sampleEncoding (.string (goString "é")) (.string (goString "e")) ≠ none := by
  intro h
  have h' := ((fallback_exact_on_valid sampleEncoding).2.2.1 (goString "é") (goString "e")
    (by decide) (by decide)).1 h
  exact absurd h' (by decide)

/-- C20. Step order is not enforced: in the session `Start` has just created,
`Test02` called with `false`, `Test03` called with `0`, `Test04` called with
`0.0` and `Test05` called with the empty string each succeed, and `Test05`
returns the record `{false, 0, 0.0, ""}`. -/
theorem zero_state_accepted (E : Encoding) (c0 : certificationBackend)
    (d d4 : Nat → Fin runes.length) (r2 : Nat) (r3 : RandFloat64) :
    (Test02 E (Start c0 d).1 ⟨randomString 32 d, false⟩ r2).2 = .ok { Int := Int.ofNat r2 } ∧
    (Test03 E (Start c0 d).1 ⟨randomString 32 d, 0⟩ r3).2 = .ok { Float := r3.val } ∧
    (Test04 E (Start c0 d).1 ⟨randomString 32 d, Float64.zero⟩ d4).2 =
      .ok { String := randomString 8 d4 } ∧
    Test05 E (Start c0 d).1 ⟨randomString 32 d, []⟩ =
      ((Start c0 d).1,
        .ok { Bool := false, Int := 0, Float := Float64.zero, String := [] }) := by
  have hs : (Start c0 d).1.clientStates (randomString 32 d) = some newState :=
    set_same c0 _ newState
  have e2 : isEqual E (.bool false) (.bool newState.bool) = none :=
    isEqual_of_deepEqual E _ _ (by decide)
  have e3 : isEqual E (.int 0) (.int newState.integer) = none :=
    isEqual_of_deepEqual E _ _ (by decide)
  have e4 : isEqual E (.float64 Float64.zero) (.float64 newState.float) = none :=
    isEqual_of_deepEqual E _ _ (by decide)
  have e5 : isEqual E (.string []) (.string newState.string) = none :=
    isEqual_of_deepEqual E _ _ (by decide)
  refine ⟨?_, ?_, ?_, ?_⟩
  · simp only [Test02, hs, e2]
  · simp only [Test03, hs, e3]
  · simp only [Test04, hs, e4]
  · simp only [Test05, hs, e5]
    rfl

end Certification
